import Mathlib

/-!
Verification development for the jDrupal entity core (`src/entity.js`).

The JavaScript source is shallowly embedded: every source function becomes a
Lean definition over an explicit state (the in-memory request-deduplication
queue registry `Drupal.services_queue`, the persisted `window.localStorage`
key/value store, and a trace of observable events: console logs, remote
handler dispatches, and caller-callback invocations).  Functions run in a
small state-plus-exception monad `JsM` so that the `try { ... } catch`
boundary of each source function is represented faithfully: primitive
collaborator operations (storage access, callback invocation, remote handler
calls) may throw according to a fault oracle carried in the ambient
configuration, and `jsCatchV` is the embedding of a source-level
`try { body } catch (error) { console.log(name + ' - ' + error); }` block.

JavaScript values are embedded as the inductive `JVal`.  JSON serialization
is modeled as the identity on structured values: the spec (section 6)
declares the persisted encoding to be a structured, lossless text encoding,
so the store holds the structured value directly and
`jsonStringify`/`jsonParse` are identities (a storage-level fault stands in
for any serialization failure).

Functions of this repository that the entity core calls but that are not
part of `src/entity.js` (the services queue component, `is_int`, `in_array`,
`function_exists`, `time`, `language_default`, `drupalgap_function_exists`)
are modeled from the spec; each such definition carries a doc comment
starting with `Modelled from the spec:`.
-/

/-- Embedded JavaScript values.  `vNaN` is the not-a-number numeric value
(produced e.g. by `parseInt` on a non-numeric string); numbers are embedded
as integers, which covers every value the entity core computes with
(ids, epoch seconds, TTL seconds). -/
inductive JVal where
  | vUndefined : JVal
  | vNull : JVal
  | vNaN : JVal
  | vBool : Bool → JVal
  | vNum : Int → JVal
  | vStr : String → JVal
  | vArr : List JVal → JVal
  | vObj : List (String × JVal) → JVal

/-- JavaScript truthiness of a value. -/
def truthy : JVal → Bool
  | .vUndefined => false
  | .vNull => false
  | .vNaN => false
  | .vBool b => b
  | .vNum n => decide (n ≠ 0)
  | .vStr s => decide (s ≠ "")
  | .vArr _ => true
  | .vObj _ => true

/-- JavaScript string coercion (`String(v)`), as used when a value is
concatenated into a string or used as a property key. -/
def jsToString : JVal → String
  | .vUndefined => "undefined"
  | .vNull => "null"
  | .vNaN => "NaN"
  | .vBool b => if b then "true" else "false"
  | .vNum n => toString n
  | .vStr s => s
  | .vArr _ => ""
  | .vObj _ => "[object Object]"

/-- `ToNumber` on a string: empty/whitespace is `0`, otherwise an integer
literal, otherwise NaN (`none`).  Fractional literals do not arise in the
entity core. -/
def strToNumberOpt (s : String) : Option Int :=
  if s.trim = "" then some 0 else s.trim.toInt?

/-- JavaScript `ToNumber`, restricted to the integer values the entity core
computes with; `none` is NaN.  Arrays and objects coerce through strings and
are approximated as NaN (they never reach a numeric comparison in any
reachable state of the core). -/
def toNumberOpt : JVal → Option Int
  | .vNum n => some n
  | .vNull => some 0
  | .vBool b => some (if b then 1 else 0)
  | .vStr s => strToNumberOpt s
  | _ => none

/-- JavaScript `a > v` for a number `a` (as in `time() > entity.expiration`);
a NaN operand makes the comparison false. -/
def jsGT (a : Int) (v : JVal) : Bool :=
  match toNumberOpt v with
  | some m => decide (a > m)
  | none => false

/-- JavaScript loose inequality `v != 0` (as in `entity.expiration != 0`).
`null` and `undefined` are not loosely equal to `0`; booleans and strings
compare numerically. -/
def looseNeqZero : JVal → Bool
  | .vNum n => decide (n ≠ 0)
  | .vNaN => true
  | .vNull => true
  | .vUndefined => true
  | .vBool b => b
  | .vStr s =>
    match strToNumberOpt s with
    | some m => decide (m ≠ 0)
    | none => true
  | .vArr _ => true
  | .vObj _ => true

/-- Is the value `undefined` (the `typeof x !== 'undefined'` test)? -/
def isUndefined : JVal → Bool
  | .vUndefined => true
  | _ => false

/-- Field lookup on an embedded object field list. -/
def fieldsGet : List (String × JVal) → String → JVal
  | [], _ => .vUndefined
  | kv :: rest, f => if kv.1 = f then kv.2 else fieldsGet rest f

/-- Field update (replace first binding or append) on a field list. -/
def fieldsSet : List (String × JVal) → String → JVal → List (String × JVal)
  | [], f, v => [(f, v)]
  | kv :: rest, f, v => if kv.1 = f then (f, v) :: rest else kv :: fieldsSet rest f v

/-- Property read `v[f]`.  On a non-object the read yields `undefined`
(property reads on `null`/`undefined` would throw in JavaScript, but every
such read in the core is guarded by a truthiness test on the base value). -/
def getField : JVal → String → JVal
  | .vObj fields, f => fieldsGet fields f
  | _, _ => .vUndefined

/-- Property write `v[f] = x`, modeled functionally: the updated object is
returned.  Writes to non-objects are silently discarded, as in non-strict
JavaScript. -/
def setField : JVal → String → JVal → JVal
  | .vObj fields, f, x => .vObj (fieldsSet fields f x)
  | v, _, _ => v

/-- Observable events of the core: console output, an outbound call to a
remote per-type handler, and invocations of caller-supplied success/error
callbacks (callbacks are identified by numeric tags). -/
inductive Event where
  | log : String → Event
  | dispatch : String → JVal → Event
  | invokeSuccess : Nat → JVal → Event
  | invokeError : Nat → String → Event

/-- A dedup-queue entry: the ordered success- and error-callback lists for
one (entity type, operation, id) key.  A list element is `none` when the
source pushed an `undefined` callback. -/
structure QEntry where
  success : List (Option Nat)
  error : List (Option Nat)

/-- A queue key: entity type, operation name, and the entity id coerced to a
string (JavaScript object keys are strings). -/
abbrev QKey := String × String × String

/-- The program state: the services queue registry, the persisted local
storage (keys to structured stored values), and the event trace. -/
structure St where
  queue : List (QKey × QEntry)
  storage : List (String × JVal)
  trace : List Event

def St.withQueue (st : St) (q : List (QKey × QEntry)) : St :=
  ⟨q, st.storage, st.trace⟩

def St.withStorage (st : St) (s : List (String × JVal)) : St :=
  ⟨st.queue, s, st.trace⟩

def St.withTrace (st : St) (tr : List Event) : St :=
  ⟨st.queue, st.storage, tr⟩

def St.addEvent (st : St) (e : Event) : St :=
  st.withTrace (st.trace ++ [e])

@[simp] theorem St.withQueue_queue (st : St) (q) : (st.withQueue q).queue = q := rfl
@[simp] theorem St.withQueue_storage (st : St) (q) : (st.withQueue q).storage = st.storage := rfl
@[simp] theorem St.withQueue_trace (st : St) (q) : (st.withQueue q).trace = st.trace := rfl
@[simp] theorem St.withStorage_queue (st : St) (s) : (st.withStorage s).queue = st.queue := rfl
@[simp] theorem St.withStorage_storage (st : St) (s) : (st.withStorage s).storage = s := rfl
@[simp] theorem St.withStorage_trace (st : St) (s) : (st.withStorage s).trace = st.trace := rfl
@[simp] theorem St.withTrace_queue (st : St) (tr) : (st.withTrace tr).queue = st.queue := rfl
@[simp] theorem St.withTrace_storage (st : St) (tr) : (st.withTrace tr).storage = st.storage := rfl
@[simp] theorem St.withTrace_trace (st : St) (tr) : (st.withTrace tr).trace = tr := rfl
@[simp] theorem St.addEvent_queue (st : St) (e) : (st.addEvent e).queue = st.queue := rfl
@[simp] theorem St.addEvent_storage (st : St) (e) : (st.addEvent e).storage = st.storage := rfl
@[simp] theorem St.addEvent_trace (st : St) (e) : (st.addEvent e).trace = st.trace ++ [e] := rfl

/-- Outcome of running an embedded JavaScript computation: a normal value,
or a thrown (not yet caught) error carrying its message. -/
inductive JsResult (α : Type) where
  | ok : α → JsResult α
  | thrown : String → JsResult α

def JsResult.isOk {α : Type} : JsResult α → Bool
  | .ok _ => true
  | .thrown _ => false

/-- The state-plus-exception monad the embedded functions run in. -/
def JsM (α : Type) : Type := St → St × JsResult α

def jsmPure {α : Type} (a : α) : JsM α := fun st => (st, .ok a)

def jsmBind {α β : Type} (m : JsM α) (f : α → JsM β) : JsM β := fun st =>
  match m st with
  | (st1, .ok a) => f a st1
  | (st1, .thrown e) => (st1, .thrown e)

instance monadJsM : Monad JsM where
  pure := jsmPure
  bind := jsmBind

theorem jsm_bind_eq {α β : Type} (m : JsM α) (f : α → JsM β) :
    m >>= f = jsmBind m f := rfl

theorem jsm_pure_eq {α : Type} (a : α) : (pure a : JsM α) = jsmPure a := rfl

theorem jsmBind_app {α β : Type} (m : JsM α) (f : α → JsM β) (st : St) :
    jsmBind m f st =
      match m st with
      | (st1, .ok a) => f a st1
      | (st1, .thrown e) => (st1, .thrown e) := rfl

theorem jsmPure_app {α : Type} (a : α) (st : St) : jsmPure a st = (st, .ok a) := rfl

theorem ite_app {σ τ : Type} (c : Prop) [Decidable c] (a b : σ → τ) (s : σ) :
    (if c then a else b) s = if c then a s else b s := by
  by_cases h : c <;> simp [h]

/-- Fault oracle for the external collaborators: which storage keys fault on
get/set/remove, which callback tags throw when invoked, and which remote
handler calls throw synchronously. -/
structure Faults where
  getF : String → Bool
  setF : String → Bool
  removeF : String → Bool
  cbF : Nat → Bool
  dispF : String → Bool

/-- The oracle under which no collaborator operation faults. -/
def noFaults : Faults :=
  ⟨fun _ => false, fun _ => false, fun _ => false, fun _ => false, fun _ => false⟩

/-- Ambient configuration: the global cache settings
(`Drupal.settings.cache.entity`), the current epoch time, the set of
functions defined on `window` (remote handlers and primary-key providers),
the value each primary-key provider returns, the default language, the
DrupalGap page-reload context read by the cache loader, and the fault
oracle. -/
structure Config where
  cachingEnabled : Bool
  cacheExpiration : Int
  now : Int
  functions : List String
  pkProvider : String → JVal
  langDefault : String
  dgReloading : Bool
  dgReset : Option JVal
  faults : Faults

/-- Modelled from the spec: the `time()` helper (not under `src/`) returns
the current epoch seconds. -/
def time (cfg : Config) : Int := cfg.now

/-- Modelled from the spec: `function_exists(name)` (not under `src/`) tests
whether `window[name]` is a defined function. -/
def function_exists (cfg : Config) (name : String) : Bool :=
  cfg.functions.contains name

/-- Modelled from the spec: `drupalgap_function_exists(name)` (not under
`src/`) tests function existence exactly like `function_exists`. -/
def drupalgap_function_exists (cfg : Config) (name : String) : Bool :=
  cfg.functions.contains name

/-- Modelled from the spec: `language_default()` (not under `src/`) returns
the configured default language code. -/
def language_default (cfg : Config) : String := cfg.langDefault

/-- Modelled from the spec: `is_int(x)` (not under `src/`) recognizes a
single integer-like value — an integer number or a string holding one
(spec section 4.5 step 1 rejects everything that is not a single
integer-like value, and step 2 coerces string ids). -/
def is_int : JVal → Bool
  | .vNum _ => true
  | .vStr s => (s.toInt?).isSome
  | _ => false

/-- Modelled from the spec: `in_array(needle, haystack)` (not under `src/`)
is list membership. -/
def in_array (needle : String) : List String → Bool
  | [] => false
  | x :: rest => if x = needle then true else in_array needle rest

/-- `console.log(msg)`: appends a log event. -/
def consoleLog (msg : String) : JsM Unit := fun st =>
  (st.addEvent (.log msg), .ok ())

/-- Association-list lookup for the persisted store. -/
def sFind : List (String × JVal) → String → Option JVal
  | [], _ => none
  | kv :: rest, k => if kv.1 = k then some kv.2 else sFind rest k

/-- Association-list write (replace first binding or append). -/
def sSet : List (String × JVal) → String → JVal → List (String × JVal)
  | [], k, v => [(k, v)]
  | kv :: rest, k, v => if kv.1 = k then (k, v) :: rest else kv :: sSet rest k v

/-- Association-list removal of every binding of a key. -/
def sRemove : List (String × JVal) → String → List (String × JVal)
  | [], _ => []
  | kv :: rest, k => if kv.1 = k then sRemove rest k else kv :: sRemove rest k

/-- `window.localStorage.getItem(key)`: the stored value, or `null` on a
miss; may fault per the oracle. -/
def stGetItem (cfg : Config) (key : String) : JsM JVal := fun st =>
  if cfg.faults.getF key then (st, .thrown "localStorage getItem error")
  else
    match sFind st.storage key with
    | some v => (st, .ok v)
    | none => (st, .ok .vNull)

/-- `window.localStorage.setItem(key, v)`; may fault per the oracle
(e.g. storage full). -/
def stSetItem (cfg : Config) (key : String) (v : JVal) : JsM Unit := fun st =>
  if cfg.faults.setF key then (st, .thrown "localStorage setItem error")
  else (st.withStorage (sSet st.storage key v), .ok ())

/-- `window.localStorage.removeItem(key)`; may fault per the oracle. -/
def stRemoveItem (cfg : Config) (key : String) : JsM Unit := fun st =>
  if cfg.faults.removeF key then (st, .thrown "localStorage removeItem error")
  else (st.withStorage (sRemove st.storage key), .ok ())

/-- `JSON.stringify`, modeled as the identity on the structured value (the
spec declares the persisted encoding lossless; a storage fault models any
serialization failure). -/
def jsonStringify (v : JVal) : JVal := v

/-- `JSON.parse`, modeled as the identity on the structured stored value. -/
def jsonParse (v : JVal) : JVal := v

/-- Invocation of a caller-supplied success callback; invoking `undefined`
throws, and the oracle may make a callback itself throw. -/
def invoke_callback (cfg : Config) (cb : Option Nat) (payload : JVal) : JsM Unit := fun st =>
  match cb with
  | none => (st, .thrown "TypeError: callback is not a function")
  | some n =>
    if cfg.faults.cbF n then (st, .thrown "error thrown by success callback")
    else (st.addEvent (.invokeSuccess n payload), .ok ())

/-- Invocation of a caller-supplied error callback with a message (the
transport handle and status arguments are delivered to the collaborator and
are not part of the recorded event). -/
def invoke_error_callback (cfg : Config) (cb : Option Nat) (message : String) : JsM Unit :=
  fun st =>
    match cb with
    | none => (st, .thrown "TypeError: callback is not a function")
    | some n =>
      if cfg.faults.cbF n then (st, .thrown "error thrown by error callback")
      else (st.addEvent (.invokeError n message), .ok ())

/-- An outbound call `window[fname](arg, options)` to a remote per-type
handler: records the dispatch; the oracle may make the handler throw
synchronously. -/
def dispatchRemote (cfg : Config) (fname : String) (arg : JVal) : JsM Unit := fun st =>
  if cfg.faults.dispF fname then (st, .thrown "error thrown by remote handler")
  else (st.addEvent (.dispatch fname arg), .ok ())

/-- The embedding of a source-level
`try { body } catch (error) { console.log(name + ' - ' + error); }`
function boundary: a thrown error is converted into a log entry and the
function's result becomes `default` (`undefined` for most functions). -/
def jsCatchV {α : Type} (name : String) (default : α) (m : JsM α) : JsM α := fun st =>
  match m st with
  | (st1, .ok v) => (st1, .ok v)
  | (st1, .thrown e) => (st1.addEvent (.log (name ++ " - " ++ e)), .ok default)

/-- Association-list lookup for the services queue registry. -/
def qFind : List (QKey × QEntry) → QKey → Option QEntry
  | [], _ => none
  | kv :: rest, k => if kv.1 = k then some kv.2 else qFind rest k

/-- Association-list in-place update of every binding of a key in the
services queue registry. -/
def qUpdate : List (QKey × QEntry) → QKey → (QEntry → QEntry) → List (QKey × QEntry)
  | [], _, _ => []
  | kv :: rest, k, f =>
    if kv.1 = k then (kv.1, f kv.2) :: qUpdate rest k f
    else kv :: qUpdate rest k f

/-- Is a queue entry present for this key (spec section 4.4 `isQueued`)? -/
def isQueuedKey (k : QKey) (st : St) : Bool := (qFind st.queue k).isSome

/-- Modelled from the spec: `_services_queue_already_queued` (the request
deduplication queue component is not under `src/`): reports whether a queue
entry exists for (type, operation, id) — spec section 4.4 `isQueued`.  The
trailing callback-type argument present at the call sites does not affect
the result. -/
def _services_queue_already_queued (entity_type operation : String) (entity_id : JVal)
    (_callback_type : String) : JsM Bool := fun st =>
  (st, .ok (qFind st.queue (entity_type, operation, jsToString entity_id)).isSome)

/-- Modelled from the spec: `_services_queue_add_to_queue` (not under
`src/`): creates the queue entry (with empty callback lists) if absent;
no-op if already present — spec section 4.4 `enqueue`. -/
def _services_queue_add_to_queue (entity_type operation : String) (entity_id : JVal) :
    JsM Unit := fun st =>
  if (qFind st.queue (entity_type, operation, jsToString entity_id)).isSome then (st, .ok ())
  else
    (st.withQueue (st.queue ++ [((entity_type, operation, jsToString entity_id), ⟨[], []⟩)]),
      .ok ())

/-- Modelled from the spec: `_services_queue_callback_add` (not under
`src/`): appends the callback to the entry's success or error list — spec
section 4.4 `addCallback`.  When no entry exists this is a no-op (every call
site first ensures the entry exists). -/
def _services_queue_callback_add (entity_type operation : String) (entity_id : JVal)
    (kind : String) (cb : Option Nat) : JsM Unit := fun st =>
  (st.withQueue (qUpdate st.queue (entity_type, operation, jsToString entity_id) (fun e =>
    if kind = "success" then ⟨e.success ++ [cb], e.error⟩
    else ⟨e.success, e.error ++ [cb]⟩)), .ok ())

/-- The read `Drupal.services_queue[entity_type]['retrieve'][entity_id].success`
performed by the success wrapper of `entity_load` (source lines 161-162);
throws a TypeError when the entry chain is missing. -/
def _services_queue_success_callbacks (entity_type : String) (entity_id : JVal) :
    JsM (List (Option Nat)) := fun st =>
  match qFind st.queue (entity_type, "retrieve", jsToString entity_id) with
  | some e => (st, .ok e.success)
  | none => (st, .thrown "TypeError: cannot read success of undefined")

/-- The write `Drupal.services_queue[entity_type]['retrieve'][entity_id].success = []`
performed by the success wrapper of `entity_load` (source lines 166-167). -/
def _services_queue_clear_success (entity_type : String) (entity_id : JVal) :
    JsM Unit := fun st =>
  match qFind st.queue (entity_type, "retrieve", jsToString entity_id) with
  | some _ =>
    (st.withQueue (qUpdate st.queue (entity_type, "retrieve", jsToString entity_id)
      (fun e => ⟨[], e.error⟩)), .ok ())
  | none => (st, .thrown "TypeError: cannot assign success of undefined")

/-- Caller-supplied `options` object: optional success and error callbacks
(by tag) and the truthiness of `options.reset`. -/
structure Opts where
  success : Option Nat
  error : Option Nat
  reset : Bool

/-- Source `entity_id_parse` (entity.js lines 21-33): a string id is parsed
with `parseInt` (NaN when the string holds no integer literal); any other
value is returned unchanged. -/
def entity_id_parse (entity_id : JVal) : JVal :=
  match entity_id with
  | .vStr s =>
    match s.toInt? with
    | some n => .vNum n
    | none => .vNaN
  | v => v

/-- Source `entity_local_storage_key` (entity.js lines 35-47): the local
storage key `entity_type + '_' + id`.  The body cannot throw, so the
source's try/catch boundary is omitted from the embedding. -/
def entity_local_storage_key (entity_type : String) (id : JVal) : String :=
  entity_type ++ "_" ++ jsToString id

/-- Source `entity_index_local_storage_key` (entity.js lines 49-55): the
query path itself is the storage key. -/
def entity_index_local_storage_key (path : String) : String := path

/-- Source `entity_caching_enabled` (entity.js lines 376-385): reads the
global `Drupal.settings.cache.entity.enabled` flag (collapsed into the
configuration; an absent settings object reads as disabled through the
source's try/catch). -/
def entity_caching_enabled (cfg : Config) : Bool := cfg.cachingEnabled

/-- Source `entity_types` (entity.js lines 415-431): the fixed list of
supported entity type names. -/
def entity_types : List String :=
  ["comment", "file", "node", "taxonomy_term", "taxonomy_vocabulary", "user"]

/-- Source `_entity_get_expiration_time` (entity.js lines 387-403): `null`
when entity caching is disabled; otherwise `0` for a zero TTL (never
expires) and `time() + ttl` for a nonzero TTL.  The source compares the
TTL setting against the string `'undefined'`; an integer-valued setting
never equals that string, so the comparison is modeled as true. -/
def _entity_get_expiration_time (cfg : Config) : JsM JVal :=
  jsCatchV "_entity_get_expiration_time" .vUndefined
    (if cfg.cachingEnabled then
      jsmPure (if cfg.cacheExpiration = 0 then JVal.vNum 0
               else JVal.vNum (time cfg + cfg.cacheExpiration))
    else jsmPure JVal.vNull)

/-- Source `_entity_set_expiration_time` (entity.js lines 405-413): sets
`entity.expiration` to the computed expiration time.  The source mutates
the entity object in place; the embedding returns the updated object (and
the unchanged object if the body threw and was caught). -/
def _entity_set_expiration_time (cfg : Config) (entity : JVal) : JsM JVal :=
  jsCatchV "_entity_set_expiration_time" entity
    (jsmBind (_entity_get_expiration_time cfg) (fun e =>
      jsmPure (setField entity "expiration" e)))

/-- Source `_entity_local_storage_delete` (entity.js lines 278-292): removes
the entity's key from local storage. -/
def _entity_local_storage_delete (cfg : Config) (entity_type : String) (entity_id : JVal) :
    JsM JVal :=
  jsCatchV "_entity_local_storage_delete" .vUndefined (do
    let storage_key := entity_local_storage_key entity_type entity_id
    stRemoveItem cfg storage_key
    pure JVal.vUndefined)

/-- Source `_entity_local_storage_save` (entity.js lines 262-276): writes
the serialized entity under its local storage key. -/
def _entity_local_storage_save (cfg : Config) (entity_type : String) (entity_id : JVal)
    (entity : JVal) : JsM JVal :=
  jsCatchV "_entity_local_storage_save" .vUndefined (do
    stSetItem cfg (entity_local_storage_key entity_type entity_id) (jsonStringify entity)
    pure JVal.vUndefined)

/-- Source `_entity_local_storage_load` (entity.js lines 198-260): if
`options.reset` is truthy the entry is deleted first; a stored entry whose
expiration is defined, loosely nonzero, and in the past is deleted and the
read is a miss; otherwise, during a DrupalGap page reload the still-valid
entry is either returned (when the page options carry `reset === false`) or
deleted; otherwise the stored entity is returned.  A miss returns `false`
(or `null` when `getItem` found no entry). -/
def _entity_local_storage_load (cfg : Config) (entity_type : String) (entity_id : JVal)
    (options : Option Opts) : JsM JVal :=
  jsCatchV "_entity_local_storage_load" .vUndefined (do
    (match options with
     | some o =>
       if o.reset then do
         let _ ← _entity_local_storage_delete cfg entity_type entity_id
         pure ()
       else pure ()
     | none => pure ())
    let local_storage_key := entity_local_storage_key entity_type entity_id
    let stored ← stGetItem cfg local_storage_key
    if truthy stored then do
      let entity := jsonParse stored
      let exp := getField entity "expiration"
      if !(isUndefined exp) && looseNeqZero exp && jsGT (time cfg) exp then do
        let _ ← _entity_local_storage_delete cfg entity_type entity_id
        pure (JVal.vBool false)
      else
        if cfg.dgReloading then
          match cfg.dgReset with
          | some (.vBool false) => pure entity
          | _ => do
            let _ ← _entity_local_storage_delete cfg entity_type entity_id
            pure (JVal.vBool false)
        else pure entity
    else pure stored)

/-- Source `entity_primary_key` (entity.js lines 294-327): the fixed
per-type primary key table, falling back to a type-registered
`<type>_primary_key` provider; an unresolved type logs a descriptive
message and yields `undefined`. -/
def entity_primary_key (cfg : Config) (entity_type : String) : JsM JVal :=
  jsCatchV "entity_primary_key" .vUndefined
    (match entity_type with
     | "comment" => jsmPure (.vStr "cid")
     | "file" => jsmPure (.vStr "fid")
     | "node" => jsmPure (.vStr "nid")
     | "taxonomy_term" => jsmPure (.vStr "tid")
     | "taxonomy_vocabulary" => jsmPure (.vStr "vid")
     | "user" => jsmPure (.vStr "uid")
     | _ =>
       let function_name := entity_type ++ "_primary_key"
       if drupalgap_function_exists cfg function_name then
         jsmPure (cfg.pkProvider function_name)
       else do
         consoleLog ("entity_primary_key - unsupported entity type (" ++ entity_type ++
           ") - to add support, declare " ++ function_name ++
           "() and have it return the primary key column name as a string")
         pure JVal.vUndefined)

/-- Source `entity_delete` (entity.js lines 1-19): dispatches
`<type>_delete(ids, options)` when the handler exists, otherwise logs an
unsupported-type warning. -/
def entity_delete (cfg : Config) (entity_type : String) (ids : JVal) (_options : Opts) :
    JsM JVal :=
  jsCatchV "entity_delete" .vUndefined (do
    let function_name := entity_type ++ "_delete"
    if function_exists cfg function_name then do
      dispatchRemote cfg function_name ids
      pure JVal.vUndefined
    else do
      consoleLog ("WARNING: entity_delete - unsupported type: " ++ entity_type)
      pure JVal.vUndefined)

/-- Source `entity_save` (entity.js lines 329-374): chooses a create or
update handler per type from the presence (truthiness) of the type's
primary-key field on the entity — except `file`, which always uses
`file_create` — and injects the default language into a `node` entity
without one; dispatches `handler(entity, options)` when the handler
exists, otherwise logs an unsupported-type warning. -/
def entity_save (cfg : Config) (entity_type : String) (_bundle : String) (entity : JVal)
    (_options : Opts) : JsM JVal :=
  jsCatchV "entity_save" .vUndefined (do
    let fe : Option String × JVal :=
      match entity_type with
      | "comment" =>
        (some (if truthy (getField entity "cid") then "comment_update" else "comment_create"),
          entity)
      | "file" => (some "file_create", entity)
      | "node" =>
        let e :=
          if truthy (getField entity "language") then entity
          else setField entity "language" (.vStr (language_default cfg))
        (some (if truthy (getField e "nid") then "node_update" else "node_create"), e)
      | "user" =>
        (some (if truthy (getField entity "uid") then "user_update" else "user_create"),
          entity)
      | "taxonomy_term" =>
        (some (if truthy (getField entity "tid") then "taxonomy_term_update"
               else "taxonomy_term_create"), entity)
      | "taxonomy_vocabulary" =>
        (some (if truthy (getField entity "vid") then "taxonomy_vocabulary_update"
               else "taxonomy_vocabulary_create"), entity)
      | _ => (none, entity)
    match fe.1 with
    | some function_name =>
      if function_exists cfg function_name then do
        dispatchRemote cfg function_name fe.2
        pure JVal.vUndefined
      else do
        consoleLog ("WARNING: entity_save - unsupported type: " ++ entity_type)
        pure JVal.vUndefined
    | none => do
      consoleLog ("WARNING: entity_save - unsupported type: " ++ entity_type)
      pure JVal.vUndefined)

/-- The fan-out loop of the success wrapper in `entity_load` (entity.js
lines 163-165): invokes each queued success callback, in registration
order, with the resolved entity. -/
def _invoke_success_callbacks (cfg : Config) (cbs : List (Option Nat)) (entity : JVal) :
    JsM Unit :=
  match cbs with
  | [] => jsmPure ()
  | cb :: rest => do
    invoke_callback cfg cb entity
    _invoke_success_callbacks cfg rest entity

/-- The success wrapper built by `entity_load` (entity.js lines 146-173,
`call_options.success`): sets the returned data's expiration time and
writes it to the cache when caching is enabled, then fans the entity out to
every queued success callback for (type, 'retrieve', id) and resets the
success-callback list to empty; all under its own try/catch boundary.
`caching_enabled` and `entity_id` are the values the closure captured. -/
def entity_load_call_success (cfg : Config) (entity_type : String) (entity_id : JVal)
    (caching_enabled : Bool) (data : JVal) : JsM JVal :=
  jsCatchV "entity_load - success" .vUndefined (do
    let entity := data
    let entity ←
      if caching_enabled then do
        let e ← _entity_set_expiration_time cfg entity
        let _ ← _entity_local_storage_save cfg entity_type entity_id e
        pure e
      else pure entity
    let _success_callbacks ← _services_queue_success_callbacks entity_type entity_id
    _invoke_success_callbacks cfg _success_callbacks entity
    _services_queue_clear_success entity_type entity_id
    pure JVal.vUndefined)

/-- The error wrapper built by `entity_load` (entity.js lines 174-181,
`call_options.error`): forwards the failure to the triggering caller's
error callback only (when one was supplied), under its own try/catch
boundary. -/
def entity_load_call_error (cfg : Config) (options : Opts) (_xhr _status : JVal)
    (message : String) : JsM JVal :=
  jsCatchV "entity_load - error" .vUndefined (do
    (if options.error.isSome then invoke_error_callback cfg options.error message
     else pure ())
    pure JVal.vUndefined)

/-- Source `entity_load` (entity.js lines 57-196).  Rejects a non
integer-like id with only a log message; parses the id; when the key is
already queued, serves a valid cached copy (caching enabled) or registers
the caller's callbacks as a waiter; when not queued, creates the queue
entry, registers the success callback, serves a valid cached copy if one
exists (leaving the fresh queue entry in place), validates the type,
computes the primary key, and dispatches `<type>_retrieve(ids, call_options)`
when the handler exists.  The `call_options` success/error wrappers are
embedded as `entity_load_call_success` / `entity_load_call_error`; the
extra `call_options[primary_key] = entity_id` binding is data handed to the
collaborator and is not part of the recorded dispatch event. -/
def entity_load (cfg : Config) (entity_type : String) (ids : JVal) (options : Opts) :
    JsM JVal :=
  jsCatchV "entity_load" .vUndefined (do
    if !(is_int ids) then do
      consoleLog ("entity_load(" ++ entity_type ++ ") - only single ids supported!")
      pure JVal.vUndefined
    else do
      let caching_enabled := entity_caching_enabled cfg
      let entity_id := entity_id_parse ids
      let queued ← _services_queue_already_queued entity_type "retrieve" entity_id "success"
      if queued then do
        let entity ←
          if caching_enabled then
            _entity_local_storage_load cfg entity_type entity_id (some options)
          else pure (JVal.vBool false)
        if truthy entity then do
          (if options.success.isSome then invoke_callback cfg options.success entity
           else pure ())
          pure JVal.vUndefined
        else do
          (if options.success.isSome then
            _services_queue_callback_add entity_type "retrieve" entity_id "success"
              options.success
           else pure ())
          (if options.error.isSome then
            _services_queue_callback_add entity_type "retrieve" entity_id "error"
              options.error
           else pure ())
          pure JVal.vUndefined
      else do
        _services_queue_add_to_queue entity_type "retrieve" entity_id
        _services_queue_callback_add entity_type "retrieve" entity_id "success"
          options.success
        let entity ←
          if caching_enabled then
            _entity_local_storage_load cfg entity_type entity_id (some options)
          else pure (JVal.vBool false)
        if truthy entity then do
          (if options.success.isSome then invoke_callback cfg options.success entity
           else pure ())
          pure JVal.vUndefined
        else
          if !(in_array entity_type entity_types) then do
            let message := "WARNING: entity_load - unsupported type: " ++ entity_type
            consoleLog message
            (if options.error.isSome then invoke_error_callback cfg options.error message
             else pure ())
            pure JVal.vUndefined
          else do
            let _primary_key ← entity_primary_key cfg entity_type
            let function_name := entity_type ++ "_retrieve"
            if function_exists cfg function_name then do
              dispatchRemote cfg function_name ids
              pure JVal.vUndefined
            else do
              consoleLog ("WARNING: " ++ function_name ++ "() does not exist!")
              pure JVal.vUndefined)

/-- The id-collection loop of `_entity_index_local_storage_save` (entity.js
lines 500-502): extracts each entity's primary-key value, in order. -/
def _entity_index_collect_ids (cfg : Config) (entity_type : String) :
    List JVal → JsM (List JVal)
  | [] => jsmPure []
  | e :: rest => do
    let pk ← entity_primary_key cfg entity_type
    let ids ← _entity_index_collect_ids cfg entity_type rest
    pure (getField e (jsToString pk) :: ids)

/-- Source `_entity_index_local_storage_save` (entity.js lines 486-509):
persists, under the query path, an index object holding the entity type,
a freshly computed expiration, and the ordered list of the entities'
primary-key values. -/
def _entity_index_local_storage_save (cfg : Config) (entity_type path : String)
    (result : List JVal) : JsM JVal :=
  jsCatchV "_entity_index_local_storage_save" .vUndefined (do
    let expiration ← _entity_get_expiration_time cfg
    let entity_ids ← _entity_index_collect_ids cfg entity_type result
    let index := JVal.vObj
      [("entity_type", .vStr entity_type), ("expiration", expiration),
       ("entity_ids", .vArr entity_ids)]
    stSetItem cfg (entity_index_local_storage_key path) (jsonStringify index)
    pure JVal.vUndefined)

/-- Source `_entity_index_local_storage_delete` (entity.js lines 511-521):
removes the index entry for the query path. -/
def _entity_index_local_storage_delete (cfg : Config) (path : String) : JsM JVal :=
  jsCatchV "_entity_index_local_storage_delete" .vUndefined (do
    let storage_key := entity_index_local_storage_key path
    stRemoveItem cfg storage_key
    pure JVal.vUndefined)

/-- The elements of the stored `entity_ids` array (the
`_entity_index.entity_ids` read of entity.js line 469); reading `.length`
of an undefined or null field throws. -/
def jsArrayElems (v : JVal) : JsM (List JVal) := fun st =>
  match v with
  | .vArr l => (st, .ok l)
  | .vUndefined => (st, .thrown "TypeError: cannot read length of undefined")
  | .vNull => (st, .thrown "TypeError: cannot read length of null")
  | _ => (st, .ok [])

/-- The replay loop of `_entity_index_local_storage_load` (entity.js lines
468-477): loads each stored id through the entity cache store, in order,
passing individual misses through. -/
def _entity_index_replay (cfg : Config) (entity_type : String) (options : Option Opts) :
    List JVal → JsM (List JVal)
  | [] => jsmPure []
  | idv :: rest => do
    let e ← _entity_local_storage_load cfg entity_type idv options
    let r ← _entity_index_replay cfg entity_type options rest
    pure (e :: r)

/-- Source `_entity_index_local_storage_load` (entity.js lines 433-484):
same reset/expiry handling as the entity cache store applied to the index
entry itself; on a hit, replays each stored id through
`_entity_local_storage_load` and returns the resulting sequence. -/
def _entity_index_local_storage_load (cfg : Config) (entity_type path : String)
    (options : Option Opts) : JsM JVal :=
  jsCatchV "_entity_index_local_storage_load" .vUndefined (do
    (match options with
     | some o =>
       if o.reset then do
         let _ ← _entity_index_local_storage_delete cfg path
         pure ()
       else pure ()
     | none => pure ())
    let local_storage_key := entity_index_local_storage_key path
    let stored ← stGetItem cfg local_storage_key
    if truthy stored then do
      let _entity_index := jsonParse stored
      let exp := getField _entity_index "expiration"
      if !(isUndefined exp) && looseNeqZero exp && jsGT (time cfg) exp then do
        let _ ← _entity_index_local_storage_delete cfg path
        pure (JVal.vBool false)
      else do
        let ids ← jsArrayElems (getField _entity_index "entity_ids")
        let result ← _entity_index_replay cfg entity_type options ids
        pure (JVal.vArr result)
    else pure stored)

/-- One invocation of a public operation of the core (or of one of the
callback wrappers `entity_load` hands to the remote retrieve handler). -/
inductive Op where
  | opLoad : String → JVal → Opts → Op
  | opSave : String → String → JVal → Opts → Op
  | opDelete : String → JVal → Opts → Op
  | opPrimaryKey : String → Op
  | opCacheLoad : String → JVal → Option Opts → Op
  | opCacheSave : String → JVal → JVal → Op
  | opCacheDelete : String → JVal → Op
  | opIndexLoad : String → String → Option Opts → Op
  | opIndexSave : String → String → List JVal → Op
  | opIndexDelete : String → Op
  | opRetrieveSuccess : String → JVal → Bool → JVal → Op
  | opRetrieveError : Opts → JVal → JVal → String → Op

/-- Runs one operation of the core. -/
def runOp (cfg : Config) : Op → JsM JVal
  | .opLoad t ids o => entity_load cfg t ids o
  | .opSave t b e o => entity_save cfg t b e o
  | .opDelete t ids o => entity_delete cfg t ids o
  | .opPrimaryKey t => entity_primary_key cfg t
  | .opCacheLoad t id o => _entity_local_storage_load cfg t id o
  | .opCacheSave t id e => _entity_local_storage_save cfg t id e
  | .opCacheDelete t id => _entity_local_storage_delete cfg t id
  | .opIndexLoad t p o => _entity_index_local_storage_load cfg t p o
  | .opIndexSave t p r => _entity_index_local_storage_save cfg t p r
  | .opIndexDelete p => _entity_index_local_storage_delete cfg p
  | .opRetrieveSuccess t id ce data => entity_load_call_success cfg t id ce data
  | .opRetrieveError o xhr status msg => entity_load_call_error cfg o xhr status msg

/-- Runs a sequence of operations, each under its own configuration
snapshot (the global settings are re-read at every cache decision). -/
def runOps : List (Config × Op) → St → St
  | [], st => st
  | (cfg, op) :: rest, st => runOps rest ((runOp cfg op st).1)

theorem qFind_append (q₁ q₂ : List (QKey × QEntry)) (k : QKey) :
    qFind (q₁ ++ q₂) k =
      match qFind q₁ k with
      | some e => some e
      | none => qFind q₂ k := by
  induction q₁ with
  | nil => simp [qFind]
  | cons kv rest ih =>
    by_cases h : kv.1 = k
    · simp [qFind, h]
    · simp [qFind, h, ih]

theorem qFind_qUpdate (q : List (QKey × QEntry)) (k : QKey) (f : QEntry → QEntry)
    (k2 : QKey) :
    qFind (qUpdate q k f) k2 =
      if k = k2 then Option.map f (qFind q k2) else qFind q k2 := by
  induction q with
  | nil => simp [qFind, qUpdate]
  | cons kv rest ih =>
    by_cases hk : kv.1 = k
    · by_cases hk2 : k = k2
      · simp [qFind, qUpdate, hk, hk2]
      · have : kv.1 ≠ k2 := by rw [hk]; exact hk2
        simp [qFind, qUpdate, hk, hk2, this, ih]
    · by_cases hk2 : kv.1 = k2
      · by_cases hkk : k = k2
        · exact absurd (hkk ▸ hk2) hk
        · have h2 : ¬k2 = k := fun h => hkk h.symm
          simp [qFind, qUpdate, hk, hk2, hkk, h2]
      · simp [qFind, qUpdate, hk, hk2, ih]

theorem qUpdate_not_found (q : List (QKey × QEntry)) (k : QKey) (f : QEntry → QEntry)
    (h : qFind q k = none) : qUpdate q k f = q := by
  induction q with
  | nil => simp [qUpdate]
  | cons kv rest ih =>
    by_cases hk : kv.1 = k
    · simp [qFind, hk] at h
    · simp [qFind, hk] at h
      simp [qUpdate, hk, ih h]

theorem qUpdate_append (q₁ q₂ : List (QKey × QEntry)) (k : QKey) (f : QEntry → QEntry) :
    qUpdate (q₁ ++ q₂) k f = qUpdate q₁ k f ++ qUpdate q₂ k f := by
  induction q₁ with
  | nil => simp [qUpdate]
  | cons kv rest ih =>
    by_cases hk : kv.1 = k <;> simp [qUpdate, hk, ih]

theorem qUpdate_qUpdate (q : List (QKey × QEntry)) (k : QKey) (f g : QEntry → QEntry) :
    qUpdate (qUpdate q k f) k g = qUpdate q k (fun e => g (f e)) := by
  induction q with
  | nil => simp [qUpdate]
  | cons kv rest ih =>
    by_cases hk : kv.1 = k <;> simp [qUpdate, hk, ih]

theorem qUpdate_congr (q : List (QKey × QEntry)) (k : QKey) (f g : QEntry → QEntry)
    (h : ∀ e, f e = g e) : qUpdate q k f = qUpdate q k g := by
  induction q with
  | nil => simp [qUpdate]
  | cons kv rest ih =>
    by_cases hk : kv.1 = k <;> simp [qUpdate, hk, ih, h]

theorem sFind_sSet (s : List (String × JVal)) (k : String) (v : JVal) (k2 : String) :
    sFind (sSet s k v) k2 = if k = k2 then some v else sFind s k2 := by
  induction s with
  | nil => by_cases h : k = k2 <;> simp [sFind, sSet, h]
  | cons kv rest ih =>
    by_cases hk : kv.1 = k
    · by_cases hk2 : k = k2
      · simp [sFind, sSet, hk, hk2]
      · have : kv.1 ≠ k2 := by rw [hk]; exact hk2
        simp [sFind, sSet, hk, hk2, this]
    · by_cases hk2 : kv.1 = k2
      · by_cases hkk : k = k2
        · exact absurd (hkk ▸ hk2) hk
        · have h2 : ¬k2 = k := fun h => hkk h.symm
          simp [sFind, sSet, hk, hk2, hkk, h2]
      · simp [sFind, sSet, hk, hk2, ih]

theorem sFind_sRemove (s : List (String × JVal)) (k : String) (k2 : String) :
    sFind (sRemove s k) k2 = if k = k2 then none else sFind s k2 := by
  induction s with
  | nil => by_cases h : k = k2 <;> simp [sFind, sRemove, h]
  | cons kv rest ih =>
    by_cases hk : kv.1 = k
    · by_cases hk2 : k = k2
      · subst hk2
        simpa [sRemove, hk] using ih
      · have : kv.1 ≠ k2 := by rw [hk]; exact hk2
        simp [sFind, sRemove, hk, hk2, this, ih]
    · by_cases hk2 : kv.1 = k2
      · by_cases hkk : k = k2
        · exact absurd (hkk ▸ hk2) hk
        · have h2 : ¬k2 = k := fun h => hkk h.symm
          simp [sFind, sRemove, hk, hk2, hkk, h2, ih]
      · simp [sFind, sRemove, hk, hk2, ih]

/-- A computation that never changes the queue registry. -/
def QueueInv {α : Type} (m : JsM α) : Prop := ∀ st : St, ((m st).1).queue = st.queue

/-- A computation that never changes the persisted store. -/
def StoreInv {α : Type} (m : JsM α) : Prop := ∀ st : St, ((m st).1).storage = st.storage

/-- A computation that never removes a queue entry (keys only ever
accumulate, spec section 5). -/
def QMono {α : Type} (m : JsM α) : Prop :=
  ∀ (st : St) (k : QKey), (qFind st.queue k).isSome = true →
    (qFind ((m st).1).queue k).isSome = true

theorem queueInv_jsmPure {α : Type} (a : α) : QueueInv (jsmPure a) := fun _ => rfl

theorem queueInv_jsmBind {α β : Type} {m : JsM α} {f : α → JsM β}
    (hm : QueueInv m) (hf : ∀ a, QueueInv (f a)) : QueueInv (jsmBind m f) := by
  intro st
  unfold jsmBind
  cases h : m st with
  | mk st1 r =>
    have h1 : st1.queue = st.queue := by
      have := hm st
      rw [h] at this
      exact this
    cases r with
    | ok a => simpa [h1] using hf a st1
    | thrown e => exact h1

theorem queueInv_ite {α : Type} {c : Prop} [Decidable c] {m₁ m₂ : JsM α}
    (h₁ : QueueInv m₁) (h₂ : QueueInv m₂) : QueueInv (if c then m₁ else m₂) := by
  by_cases h : c <;> simp [h] <;> assumption

theorem queueInv_jsCatchV {α : Type} (n : String) (d : α) {m : JsM α}
    (hm : QueueInv m) : QueueInv (jsCatchV n d m) := by
  intro st
  unfold jsCatchV
  cases h : m st with
  | mk st1 r =>
    have h1 : st1.queue = st.queue := by
      have := hm st
      rw [h] at this
      exact this
    cases r with
    | ok v => exact h1
    | thrown e => simpa using h1

theorem queueInv_consoleLog (msg : String) : QueueInv (consoleLog msg) := fun _ => rfl

theorem queueInv_stGetItem (cfg : Config) (key : String) : QueueInv (stGetItem cfg key) := by
  intro st
  unfold stGetItem
  split
  · rfl
  · split <;> rfl

theorem queueInv_stSetItem (cfg : Config) (key : String) (v : JVal) :
    QueueInv (stSetItem cfg key v) := by
  intro st
  unfold stSetItem
  split <;> rfl

theorem queueInv_stRemoveItem (cfg : Config) (key : String) :
    QueueInv (stRemoveItem cfg key) := by
  intro st
  unfold stRemoveItem
  split <;> rfl

theorem queueInv_invoke_callback (cfg : Config) (cb : Option Nat) (p : JVal) :
    QueueInv (invoke_callback cfg cb p) := by
  intro st
  unfold invoke_callback
  cases cb with
  | none => rfl
  | some n => by_cases h : cfg.faults.cbF n <;> simp [h, St.addEvent]

theorem queueInv_invoke_error_callback (cfg : Config) (cb : Option Nat) (msg : String) :
    QueueInv (invoke_error_callback cfg cb msg) := by
  intro st
  unfold invoke_error_callback
  cases cb with
  | none => rfl
  | some n => by_cases h : cfg.faults.cbF n <;> simp [h, St.addEvent]

theorem queueInv_dispatchRemote (cfg : Config) (fname : String) (arg : JVal) :
    QueueInv (dispatchRemote cfg fname arg) := by
  intro st
  unfold dispatchRemote
  split <;> rfl

theorem queueInv_get_expiration (cfg : Config) :
    QueueInv (_entity_get_expiration_time cfg) := by
  unfold _entity_get_expiration_time
  apply queueInv_jsCatchV
  apply queueInv_ite <;> exact queueInv_jsmPure _

theorem queueInv_set_expiration (cfg : Config) (entity : JVal) :
    QueueInv (_entity_set_expiration_time cfg entity) := by
  unfold _entity_set_expiration_time
  apply queueInv_jsCatchV
  apply queueInv_jsmBind (queueInv_get_expiration cfg)
  intro a
  exact queueInv_jsmPure _

theorem queueInv_cache_delete (cfg : Config) (t : String) (id : JVal) :
    QueueInv (_entity_local_storage_delete cfg t id) := by
  unfold _entity_local_storage_delete
  apply queueInv_jsCatchV
  simp only [jsm_bind_eq, jsm_pure_eq]
  apply queueInv_jsmBind (queueInv_stRemoveItem cfg _)
  intro a
  exact queueInv_jsmPure _

theorem queueInv_cache_save (cfg : Config) (t : String) (id e : JVal) :
    QueueInv (_entity_local_storage_save cfg t id e) := by
  unfold _entity_local_storage_save
  apply queueInv_jsCatchV
  simp only [jsm_bind_eq, jsm_pure_eq]
  apply queueInv_jsmBind (queueInv_stSetItem cfg _ _)
  intro a
  exact queueInv_jsmPure _

theorem queueInv_cache_load (cfg : Config) (t : String) (id : JVal) (o : Option Opts) :
    QueueInv (_entity_local_storage_load cfg t id o) := by
  unfold _entity_local_storage_load
  apply queueInv_jsCatchV
  simp only [jsm_bind_eq, jsm_pure_eq]
  apply queueInv_jsmBind
  · cases o with
    | none => exact queueInv_jsmPure _
    | some oo =>
      apply queueInv_ite
      · apply queueInv_jsmBind (queueInv_cache_delete cfg t id)
        intro a
        exact queueInv_jsmPure _
      · exact queueInv_jsmPure _
  · intro a
    apply queueInv_jsmBind (queueInv_stGetItem cfg _)
    intro stored
    apply queueInv_ite
    · apply queueInv_ite
      · apply queueInv_jsmBind (queueInv_cache_delete cfg t id)
        intro b
        exact queueInv_jsmPure _
      · apply queueInv_ite
        · cases cfg.dgReset with
          | none =>
            apply queueInv_jsmBind (queueInv_cache_delete cfg t id)
            intro b
            exact queueInv_jsmPure _
          | some r =>
            cases r <;>
              first
              | (apply queueInv_jsmBind (queueInv_cache_delete cfg t id)
                 intro b
                 exact queueInv_jsmPure _)
              | skip
            case vBool b =>
              cases b
              · exact queueInv_jsmPure _
              · apply queueInv_jsmBind (queueInv_cache_delete cfg t id)
                intro b
                exact queueInv_jsmPure _
        · exact queueInv_jsmPure _
    · exact queueInv_jsmPure _

theorem queueInv_entity_primary_key (cfg : Config) (t : String) :
    QueueInv (entity_primary_key cfg t) := by
  unfold entity_primary_key
  apply queueInv_jsCatchV
  split
  · exact queueInv_jsmPure _
  · exact queueInv_jsmPure _
  · exact queueInv_jsmPure _
  · exact queueInv_jsmPure _
  · exact queueInv_jsmPure _
  · exact queueInv_jsmPure _
  · apply queueInv_ite
    · exact queueInv_jsmPure _
    · simp only [jsm_bind_eq, jsm_pure_eq]
      apply queueInv_jsmBind (queueInv_consoleLog _)
      intro a
      exact queueInv_jsmPure _

theorem queueInv_entity_delete (cfg : Config) (t : String) (ids : JVal) (o : Opts) :
    QueueInv (entity_delete cfg t ids o) := by
  unfold entity_delete
  apply queueInv_jsCatchV
  simp only [jsm_bind_eq, jsm_pure_eq]
  apply queueInv_ite
  · apply queueInv_jsmBind (queueInv_dispatchRemote cfg _ _)
    intro a
    exact queueInv_jsmPure _
  · apply queueInv_jsmBind (queueInv_consoleLog _)
    intro a
    exact queueInv_jsmPure _

theorem queueInv_entity_save (cfg : Config) (t b : String) (e : JVal) (o : Opts) :
    QueueInv (entity_save cfg t b e o) := by
  unfold entity_save
  apply queueInv_jsCatchV
  simp only [jsm_bind_eq, jsm_pure_eq]
  split
  · apply queueInv_ite
    · apply queueInv_jsmBind (queueInv_dispatchRemote cfg _ _)
      intro a
      exact queueInv_jsmPure _
    · apply queueInv_jsmBind (queueInv_consoleLog _)
      intro a
      exact queueInv_jsmPure _
  · apply queueInv_jsmBind (queueInv_consoleLog _)
    intro a
    exact queueInv_jsmPure _

theorem queueInv_collect_ids (cfg : Config) (t : String) (l : List JVal) :
    QueueInv (_entity_index_collect_ids cfg t l) := by
  induction l with
  | nil => exact queueInv_jsmPure _
  | cons e rest ih =>
    unfold _entity_index_collect_ids
    simp only [jsm_bind_eq, jsm_pure_eq]
    apply queueInv_jsmBind (queueInv_entity_primary_key cfg t)
    intro a
    apply queueInv_jsmBind ih
    intro b
    exact queueInv_jsmPure _

theorem queueInv_index_save (cfg : Config) (t p : String) (r : List JVal) :
    QueueInv (_entity_index_local_storage_save cfg t p r) := by
  unfold _entity_index_local_storage_save
  apply queueInv_jsCatchV
  simp only [jsm_bind_eq, jsm_pure_eq]
  apply queueInv_jsmBind (queueInv_get_expiration cfg)
  intro a
  apply queueInv_jsmBind (queueInv_collect_ids cfg t r)
  intro b
  apply queueInv_jsmBind (queueInv_stSetItem cfg _ _)
  intro c
  exact queueInv_jsmPure _

theorem queueInv_index_delete (cfg : Config) (p : String) :
    QueueInv (_entity_index_local_storage_delete cfg p) := by
  unfold _entity_index_local_storage_delete
  apply queueInv_jsCatchV
  simp only [jsm_bind_eq, jsm_pure_eq]
  apply queueInv_jsmBind (queueInv_stRemoveItem cfg _)
  intro a
  exact queueInv_jsmPure _

theorem queueInv_jsArrayElems (v : JVal) : QueueInv (jsArrayElems v) := by
  intro st
  unfold jsArrayElems
  cases v <;> rfl

theorem queueInv_index_replay (cfg : Config) (t : String) (o : Option Opts)
    (l : List JVal) : QueueInv (_entity_index_replay cfg t o l) := by
  induction l with
  | nil => exact queueInv_jsmPure _
  | cons idv rest ih =>
    unfold _entity_index_replay
    simp only [jsm_bind_eq, jsm_pure_eq]
    apply queueInv_jsmBind (queueInv_cache_load cfg t idv o)
    intro a
    apply queueInv_jsmBind ih
    intro b
    exact queueInv_jsmPure _

theorem queueInv_index_load (cfg : Config) (t p : String) (o : Option Opts) :
    QueueInv (_entity_index_local_storage_load cfg t p o) := by
  unfold _entity_index_local_storage_load
  apply queueInv_jsCatchV
  simp only [jsm_bind_eq, jsm_pure_eq]
  apply queueInv_jsmBind
  · cases o with
    | none => exact queueInv_jsmPure _
    | some oo =>
      apply queueInv_ite
      · apply queueInv_jsmBind (queueInv_index_delete cfg p)
        intro a
        exact queueInv_jsmPure _
      · exact queueInv_jsmPure _
  · intro a
    apply queueInv_jsmBind (queueInv_stGetItem cfg _)
    intro stored
    apply queueInv_ite
    · apply queueInv_ite
      · apply queueInv_jsmBind (queueInv_index_delete cfg p)
        intro b
        exact queueInv_jsmPure _
      · apply queueInv_jsmBind (queueInv_jsArrayElems _)
        intro ids
        apply queueInv_jsmBind (queueInv_index_replay cfg t o ids)
        intro r
        exact queueInv_jsmPure _
    · exact queueInv_jsmPure _

theorem qmono_of_queueInv {α : Type} {m : JsM α} (h : QueueInv m) : QMono m := by
  intro st k hk
  rw [h st]
  exact hk

theorem qmono_jsmPure {α : Type} (a : α) : QMono (jsmPure a) := fun _ _ h => h

theorem qmono_jsmBind {α β : Type} {m : JsM α} {f : α → JsM β}
    (hm : QMono m) (hf : ∀ a, QMono (f a)) : QMono (jsmBind m f) := by
  intro st k hk
  unfold jsmBind
  cases h : m st with
  | mk st1 r =>
    have h1 : (qFind st1.queue k).isSome = true := by
      have := hm st k hk
      rw [h] at this
      exact this
    cases r with
    | ok a => exact hf a st1 k h1
    | thrown e => exact h1

theorem qmono_ite {α : Type} {c : Prop} [Decidable c] {m₁ m₂ : JsM α}
    (h₁ : QMono m₁) (h₂ : QMono m₂) : QMono (if c then m₁ else m₂) := by
  by_cases h : c <;> simp [h] <;> assumption

theorem qmono_jsCatchV {α : Type} (n : String) (d : α) {m : JsM α}
    (hm : QMono m) : QMono (jsCatchV n d m) := by
  intro st k hk
  unfold jsCatchV
  cases h : m st with
  | mk st1 r =>
    have h1 : (qFind st1.queue k).isSome = true := by
      have := hm st k hk
      rw [h] at this
      exact this
    cases r with
    | ok v => exact h1
    | thrown e => simpa using h1

theorem qmono_queue_already_queued (t op : String) (id : JVal) (ct : String) :
    QMono (_services_queue_already_queued t op id ct) := fun _ _ h => h

theorem qmono_queue_add_to_queue (t op : String) (id : JVal) :
    QMono (_services_queue_add_to_queue t op id) := by
  intro st k hk
  unfold _services_queue_add_to_queue
  split
  · exact hk
  · simp only [St.withQueue_queue]
    rw [qFind_append]
    cases h : qFind st.queue k with
    | some e => simp
    | none => rw [h] at hk; simp at hk

theorem qmono_queue_callback_add (t op : String) (id : JVal) (kind : String)
    (cb : Option Nat) : QMono (_services_queue_callback_add t op id kind cb) := by
  intro st k hk
  unfold _services_queue_callback_add
  simp only [St.withQueue_queue]
  rw [qFind_qUpdate]
  split
  · simpa using hk
  · exact hk

theorem qmono_queue_success_callbacks (t : String) (id : JVal) :
    QMono (_services_queue_success_callbacks t id) := by
  intro st k hk
  unfold _services_queue_success_callbacks
  split <;> exact hk

theorem qmono_queue_clear_success (t : String) (id : JVal) :
    QMono (_services_queue_clear_success t id) := by
  intro st k hk
  unfold _services_queue_clear_success
  split
  · simp only [St.withQueue_queue]
    rw [qFind_qUpdate]
    split
    · simpa using hk
    · exact hk
  · exact hk

theorem qmono_invoke_success_callbacks (cfg : Config) (cbs : List (Option Nat))
    (entity : JVal) : QMono (_invoke_success_callbacks cfg cbs entity) := by
  induction cbs with
  | nil => exact qmono_jsmPure _
  | cons cb rest ih =>
    unfold _invoke_success_callbacks
    simp only [jsm_bind_eq, jsm_pure_eq]
    apply qmono_jsmBind (qmono_of_queueInv (queueInv_invoke_callback cfg cb entity))
    intro a
    exact ih

theorem qmono_entity_load_call_success (cfg : Config) (t : String) (id : JVal)
    (ce : Bool) (data : JVal) : QMono (entity_load_call_success cfg t id ce data) := by
  unfold entity_load_call_success
  apply qmono_jsCatchV
  simp only [jsm_bind_eq, jsm_pure_eq]
  apply qmono_ite
  · apply qmono_jsmBind (qmono_of_queueInv (queueInv_set_expiration cfg data))
    intro e
    apply qmono_jsmBind (qmono_of_queueInv (queueInv_cache_save cfg t id e))
    intro b
    apply qmono_jsmBind (qmono_jsmPure e)
    intro y
    apply qmono_jsmBind (qmono_queue_success_callbacks t id)
    intro cbs
    apply qmono_jsmBind (qmono_invoke_success_callbacks cfg cbs y)
    intro x
    apply qmono_jsmBind (qmono_queue_clear_success t id)
    intro x2
    exact qmono_jsmPure _
  · apply qmono_jsmBind (qmono_jsmPure data)
    intro y
    apply qmono_jsmBind (qmono_queue_success_callbacks t id)
    intro cbs
    apply qmono_jsmBind (qmono_invoke_success_callbacks cfg cbs y)
    intro x
    apply qmono_jsmBind (qmono_queue_clear_success t id)
    intro x2
    exact qmono_jsmPure _

theorem qmono_entity_load_call_error (cfg : Config) (o : Opts) (xhr status : JVal)
    (msg : String) : QMono (entity_load_call_error cfg o xhr status msg) := by
  unfold entity_load_call_error
  apply qmono_jsCatchV
  simp only [jsm_bind_eq, jsm_pure_eq]
  apply qmono_jsmBind
  · apply qmono_ite
    · exact qmono_of_queueInv (queueInv_invoke_error_callback cfg o.error msg)
    · exact qmono_jsmPure _
  · intro a
    exact qmono_jsmPure _

theorem qmono_entity_load (cfg : Config) (t : String) (ids : JVal) (o : Opts) :
    QMono (entity_load cfg t ids o) := by
  unfold entity_load
  apply qmono_jsCatchV
  simp only [jsm_bind_eq, jsm_pure_eq]
  apply qmono_ite
  · apply qmono_jsmBind (qmono_of_queueInv (queueInv_consoleLog _))
    intro a
    exact qmono_jsmPure _
  · apply qmono_jsmBind (qmono_queue_already_queued t "retrieve" (entity_id_parse ids) "success")
    intro queued
    apply qmono_ite
    · apply qmono_ite <;>
        [apply qmono_jsmBind
          (qmono_of_queueInv (queueInv_cache_load cfg t (entity_id_parse ids) (some o)));
         apply qmono_jsmBind (qmono_jsmPure (JVal.vBool false))] <;>
      · intro entity
        apply qmono_ite
        · apply qmono_jsmBind
          · apply qmono_ite
            · exact qmono_of_queueInv (queueInv_invoke_callback cfg o.success entity)
            · exact qmono_jsmPure _
          · intro a
            exact qmono_jsmPure _
        · apply qmono_jsmBind
          · apply qmono_ite
            · exact qmono_queue_callback_add t "retrieve" (entity_id_parse ids) "success"
                o.success
            · exact qmono_jsmPure _
          · intro a
            apply qmono_jsmBind
            · apply qmono_ite
              · exact qmono_queue_callback_add t "retrieve" (entity_id_parse ids) "error"
                  o.error
              · exact qmono_jsmPure _
            · intro b
              exact qmono_jsmPure _
    · apply qmono_jsmBind (qmono_queue_add_to_queue t "retrieve" (entity_id_parse ids))
      intro a
      apply qmono_jsmBind
        (qmono_queue_callback_add t "retrieve" (entity_id_parse ids) "success" o.success)
      intro b
      apply qmono_ite <;>
        [apply qmono_jsmBind
          (qmono_of_queueInv (queueInv_cache_load cfg t (entity_id_parse ids) (some o)));
         apply qmono_jsmBind (qmono_jsmPure (JVal.vBool false))] <;>
      · intro entity
        apply qmono_ite
        · apply qmono_jsmBind
          · apply qmono_ite
            · exact qmono_of_queueInv (queueInv_invoke_callback cfg o.success entity)
            · exact qmono_jsmPure _
          · intro c
            exact qmono_jsmPure _
        · apply qmono_ite
          · apply qmono_jsmBind (qmono_of_queueInv (queueInv_consoleLog _))
            intro c
            apply qmono_jsmBind
            · apply qmono_ite
              · exact qmono_of_queueInv (queueInv_invoke_error_callback cfg o.error _)
              · exact qmono_jsmPure _
            · intro d
              exact qmono_jsmPure _
          · apply qmono_jsmBind (qmono_of_queueInv (queueInv_entity_primary_key cfg t))
            intro pk
            apply qmono_ite
            · apply qmono_jsmBind (qmono_of_queueInv (queueInv_dispatchRemote cfg _ _))
              intro c
              exact qmono_jsmPure _
            · apply qmono_jsmBind (qmono_of_queueInv (queueInv_consoleLog _))
              intro c
              exact qmono_jsmPure _

theorem qmono_runOp (cfg : Config) (op : Op) : QMono (runOp cfg op) := by
  cases op with
  | opLoad t ids o => exact qmono_entity_load cfg t ids o
  | opSave t b e o => exact qmono_of_queueInv (queueInv_entity_save cfg t b e o)
  | opDelete t ids o => exact qmono_of_queueInv (queueInv_entity_delete cfg t ids o)
  | opPrimaryKey t => exact qmono_of_queueInv (queueInv_entity_primary_key cfg t)
  | opCacheLoad t id o => exact qmono_of_queueInv (queueInv_cache_load cfg t id o)
  | opCacheSave t id e => exact qmono_of_queueInv (queueInv_cache_save cfg t id e)
  | opCacheDelete t id => exact qmono_of_queueInv (queueInv_cache_delete cfg t id)
  | opIndexLoad t p o => exact qmono_of_queueInv (queueInv_index_load cfg t p o)
  | opIndexSave t p r => exact qmono_of_queueInv (queueInv_index_save cfg t p r)
  | opIndexDelete p => exact qmono_of_queueInv (queueInv_index_delete cfg p)
  | opRetrieveSuccess t id ce data => exact qmono_entity_load_call_success cfg t id ce data
  | opRetrieveError o xhr status msg => exact qmono_entity_load_call_error cfg o xhr status msg

theorem runOps_preserves_queued (cops : List (Config × Op)) (st : St) (k : QKey)
    (h : isQueuedKey k st = true) : isQueuedKey k (runOps cops st) = true := by
  induction cops generalizing st with
  | nil => exact h
  | cons co rest ih =>
    unfold runOps
    exact ih _ (qmono_runOp co.1 co.2 st k h)

theorem jsCatchV_isOk {α : Type} (n : String) (d : α) (m : JsM α) (st : St) :
    ((jsCatchV n d m) st).2.isOk = true := by
  unfold jsCatchV
  cases h : m st with
  | mk st1 r => cases r <;> simp [JsResult.isOk]

theorem jsCatchV_ok {α : Type} (n : String) (d : α) (m : JsM α) (st st1 : St) (v : α)
    (h : m st = (st1, .ok v)) : (jsCatchV n d m) st = (st1, .ok v) := by
  unfold jsCatchV
  rw [h]

theorem in_array_entity_types (t : String) (h : in_array t entity_types = true) :
    t = "comment" ∨ t = "file" ∨ t = "node" ∨ t = "taxonomy_term" ∨
      t = "taxonomy_vocabulary" ∨ t = "user" := by
  simp only [entity_types, in_array] at h
  split at h
  next h1 => exact Or.inl h1.symm
  next =>
    split at h
    next h1 => exact Or.inr (Or.inl h1.symm)
    next =>
      split at h
      next h1 => exact Or.inr (Or.inr (Or.inl h1.symm))
      next =>
        split at h
        next h1 => exact Or.inr (Or.inr (Or.inr (Or.inl h1.symm)))
        next =>
          split at h
          next h1 => exact Or.inr (Or.inr (Or.inr (Or.inr (Or.inl h1.symm))))
          next =>
            split at h
            next h1 => exact Or.inr (Or.inr (Or.inr (Or.inr (Or.inr h1.symm))))
            next => exact absurd h (by simp)

theorem truthy_of_getField_vNum (v : JVal) (f : String) (E : Int)
    (h : getField v f = .vNum E) : truthy v = true := by
  cases v <;> simp [getField, truthy] at h ⊢

theorem expired_cond_false (cfg : Config) (v : JVal) (E : Int)
    (hexp : getField v "expiration" = .vNum E) (hval : E = 0 ∨ cfg.now ≤ E) :
    (!(isUndefined (getField v "expiration")) && looseNeqZero (getField v "expiration") &&
      jsGT (time cfg) (getField v "expiration")) = false := by
  rw [hexp]
  rcases hval with h0 | hle
  · subst h0
    simp [isUndefined, looseNeqZero, jsGT, toNumberOpt]
  · simp [isUndefined, looseNeqZero, jsGT, toNumberOpt, time]
    omega

theorem expired_cond_true (cfg : Config) (v : JVal) (E : Int)
    (hexp : getField v "expiration" = .vNum E) (hE : E ≠ 0) (hnow : cfg.now > E) :
    (!(isUndefined (getField v "expiration")) && looseNeqZero (getField v "expiration") &&
      jsGT (time cfg) (getField v "expiration")) = true := by
  rw [hexp]
  simp [isUndefined, looseNeqZero, jsGT, toNumberOpt, time, hE]
  omega

theorem cache_load_hit (cfg : Config) (t : String) (idv v : JVal) (E : Int)
    (options : Option Opts) (st : St)
    (hget : cfg.faults.getF (entity_local_storage_key t idv) = false)
    (hs : sFind st.storage (entity_local_storage_key t idv) = some v)
    (hexp : getField v "expiration" = .vNum E)
    (hval : E = 0 ∨ cfg.now ≤ E)
    (hdg : cfg.dgReloading = false)
    (hopt : match options with | some o => o.reset = false | none => True) :
    _entity_local_storage_load cfg t idv options st = (st, .ok v) := by
  have htr : truthy v = true := truthy_of_getField_vNum v "expiration" E hexp
  have hcond := expired_cond_false cfg v E hexp hval
  unfold _entity_local_storage_load
  apply jsCatchV_ok
  simp only [jsm_bind_eq, jsm_pure_eq]
  cases options with
  | none =>
    simp [jsmBind, jsmPure, stGetItem, hget, hs, jsonParse, htr, hcond, hdg]
  | some o =>
    simp only at hopt
    simp [jsmBind, jsmPure, stGetItem, hget, hs, jsonParse, htr, hcond, hdg, hopt]

theorem cache_delete_eval (cfg : Config) (t : String) (idv : JVal) (st : St)
    (hrem : cfg.faults.removeF (entity_local_storage_key t idv) = false) :
    _entity_local_storage_delete cfg t idv st =
      (st.withStorage (sRemove st.storage (entity_local_storage_key t idv)), .ok .vUndefined) := by
  unfold _entity_local_storage_delete
  apply jsCatchV_ok
  simp [jsm_bind_eq, jsm_pure_eq, jsmBind, jsmPure, stRemoveItem, hrem]

theorem cache_save_eval (cfg : Config) (t : String) (idv e : JVal) (st : St)
    (hset : cfg.faults.setF (entity_local_storage_key t idv) = false) :
    _entity_local_storage_save cfg t idv e st =
      (st.withStorage (sSet st.storage (entity_local_storage_key t idv) e), .ok .vUndefined) := by
  unfold _entity_local_storage_save
  apply jsCatchV_ok
  simp [jsm_bind_eq, jsm_pure_eq, jsmBind, jsmPure, stSetItem, hset, jsonStringify]

theorem cache_load_expired (cfg : Config) (t : String) (idv v : JVal) (E : Int)
    (options : Option Opts) (st : St)
    (hget : cfg.faults.getF (entity_local_storage_key t idv) = false)
    (hrem : cfg.faults.removeF (entity_local_storage_key t idv) = false)
    (hs : sFind st.storage (entity_local_storage_key t idv) = some v)
    (hexp : getField v "expiration" = .vNum E)
    (hE : E ≠ 0) (hnow : cfg.now > E)
    (hopt : match options with | some o => o.reset = false | none => True) :
    _entity_local_storage_load cfg t idv options st =
      (st.withStorage (sRemove st.storage (entity_local_storage_key t idv)),
        .ok (.vBool false)) := by
  have htr : truthy v = true := truthy_of_getField_vNum v "expiration" E hexp
  have hcond := expired_cond_true cfg v E hexp hE hnow
  have hdel := cache_delete_eval cfg t idv st hrem
  unfold _entity_local_storage_load
  apply jsCatchV_ok
  simp only [jsm_bind_eq, jsm_pure_eq]
  cases options with
  | none =>
    simp [jsmBind, jsmPure, stGetItem, hget, hs, jsonParse, htr, hcond, hdel]
  | some o =>
    simp only at hopt
    simp [jsmBind, jsmPure, stGetItem, hget, hs, jsonParse, htr, hcond, hdel, hopt]

theorem cache_load_reset (cfg : Config) (t : String) (idv : JVal) (o : Opts) (st : St)
    (hget : cfg.faults.getF (entity_local_storage_key t idv) = false)
    (hrem : cfg.faults.removeF (entity_local_storage_key t idv) = false)
    (hreset : o.reset = true) :
    _entity_local_storage_load cfg t idv (some o) st =
      (st.withStorage (sRemove st.storage (entity_local_storage_key t idv)), .ok .vNull) := by
  have hdel := cache_delete_eval cfg t idv st hrem
  have hmiss : sFind (sRemove st.storage (entity_local_storage_key t idv))
      (entity_local_storage_key t idv) = none := by
    rw [sFind_sRemove]
    simp
  unfold _entity_local_storage_load
  apply jsCatchV_ok
  simp [jsm_bind_eq, jsm_pure_eq, jsmBind, jsmPure, stGetItem, hget, hreset, hdel, hmiss,
    truthy]

theorem set_expiration_eval (cfg : Config) (data : JVal) (st : St)
    (hce : cfg.cachingEnabled = true) :
    _entity_set_expiration_time cfg data st =
      (st, .ok (setField data "expiration"
        (if cfg.cacheExpiration = 0 then .vNum 0
         else .vNum (cfg.now + cfg.cacheExpiration)))) := by
  unfold _entity_set_expiration_time _entity_get_expiration_time
  apply jsCatchV_ok
  simp [jsm_bind_eq, jsm_pure_eq, jsmBind, jsmPure, jsCatchV, hce, time]

theorem qUpdate_id (q : List (QKey × QEntry)) (k : QKey) :
    qUpdate q k (fun e => e) = q := by
  induction q with
  | nil => rfl
  | cons kv rest ih =>
    by_cases hk : kv.1 = k <;> simp [qUpdate, hk, ih]
    rw [← hk]

theorem entity_load_nonint (cfg : Config) (t : String) (ids : JVal) (o : Opts) (st : St)
    (his : is_int ids = false) :
    entity_load cfg t ids o st =
      (st.addEvent (.log ("entity_load(" ++ t ++ ") - only single ids supported!")),
        .ok .vUndefined) := by
  unfold entity_load
  apply jsCatchV_ok
  simp [jsm_bind_eq, jsm_pure_eq, jsmBind, jsmPure, his, consoleLog]

theorem entity_load_first_core (cfg : Config) (t : String) (i : Int) (o : Opts) (st : St)
    (pk : JVal)
    (hce : cfg.cachingEnabled = false)
    (hq : qFind st.queue (t, "retrieve", toString i) = none)
    (hpk : ∀ st2 : St, entity_primary_key cfg t st2 = (st2, .ok pk))
    (hsupp : in_array t entity_types = true)
    (hfn : function_exists cfg (t ++ "_retrieve") = true)
    (hdf : cfg.faults.dispF (t ++ "_retrieve") = false) :
    entity_load cfg t (.vNum i) o st =
      (⟨st.queue ++ [((t, "retrieve", toString i), ⟨[o.success], []⟩)],
        st.storage, st.trace ++ [.dispatch (t ++ "_retrieve") (.vNum i)]⟩,
        .ok .vUndefined) := by
  obtain ⟨q0, s0, tr0⟩ := st
  simp only [qFind] at hq
  unfold entity_load
  apply jsCatchV_ok
  simp [jsm_bind_eq, jsm_pure_eq, jsmBind, jsmPure, is_int, entity_id_parse, jsToString,
    entity_caching_enabled, hce, _services_queue_already_queued,
    _services_queue_add_to_queue, _services_queue_callback_add, hq, truthy, hsupp, hpk,
    hfn, hdf, dispatchRemote, qUpdate_append, qUpdate_not_found, qUpdate, qFind,
    St.withQueue, St.addEvent, St.withTrace]

theorem entity_load_first (cfg : Config) (t : String) (i : Int) (o : Opts) (st : St)
    (hce : cfg.cachingEnabled = false)
    (hq : qFind st.queue (t, "retrieve", toString i) = none)
    (hsupp : in_array t entity_types = true)
    (hfn : function_exists cfg (t ++ "_retrieve") = true)
    (hdf : cfg.faults.dispF (t ++ "_retrieve") = false) :
    entity_load cfg t (.vNum i) o st =
      (⟨st.queue ++ [((t, "retrieve", toString i), ⟨[o.success], []⟩)],
        st.storage, st.trace ++ [.dispatch (t ++ "_retrieve") (.vNum i)]⟩,
        .ok .vUndefined) := by
  rcases in_array_entity_types t hsupp with h | h | h | h | h | h <;> subst h <;>
    exact entity_load_first_core cfg _ i o st _ hce hq (fun st2 => rfl) hsupp hfn hdf

theorem entity_load_queued_register (cfg : Config) (t : String) (i : Int) (cb : Nat)
    (st : St) (e : QEntry)
    (hce : cfg.cachingEnabled = false)
    (hq : qFind st.queue (t, "retrieve", toString i) = some e) :
    entity_load cfg t (.vNum i) ⟨some cb, none, false⟩ st =
      (st.withQueue (qUpdate st.queue (t, "retrieve", toString i)
        (fun e => ⟨e.success ++ [some cb], e.error⟩)), .ok .vUndefined) := by
  unfold entity_load
  apply jsCatchV_ok
  simp [jsm_bind_eq, jsm_pure_eq, jsmBind, jsmPure, is_int, entity_id_parse, jsToString,
    entity_caching_enabled, hce, _services_queue_already_queued,
    _services_queue_callback_add, hq, truthy]

/-- `N` nested `entity_load` calls for the same id, each registering one
success callback and no error callback (the shape of the dedup test of spec
section 8). -/
def entity_load_many (cfg : Config) (t : String) (ids : JVal) : List Nat → St → St
  | [], st => st
  | c :: rest, st =>
    entity_load_many cfg t ids rest ((entity_load cfg t ids ⟨some c, none, false⟩ st).1)

@[simp] theorem St.withQueue_self (st : St) : st.withQueue st.queue = st := rfl

@[simp] theorem St.withQueue_withQueue (st : St) (a b : List (QKey × QEntry)) :
    (st.withQueue a).withQueue b = st.withQueue b := rfl

theorem entity_load_many_queued (cfg : Config) (t : String) (i : Int) (cbs : List Nat)
    (st : St)
    (hce : cfg.cachingEnabled = false)
    (hq : (qFind st.queue (t, "retrieve", toString i)).isSome = true) :
    entity_load_many cfg t (.vNum i) cbs st =
      st.withQueue (qUpdate st.queue (t, "retrieve", toString i)
        (fun e => ⟨e.success ++ cbs.map some, e.error⟩)) := by
  induction cbs generalizing st with
  | nil =>
    unfold entity_load_many
    have : qUpdate st.queue (t, "retrieve", toString i)
        (fun e => ⟨e.success ++ [].map some, e.error⟩) = st.queue := by
      rw [qUpdate_congr _ _ _ (fun e => e) (by intro e; simp)]
      exact qUpdate_id _ _
    rw [this]
    exact (St.withQueue_self st).symm
  | cons c rest ih =>
    unfold entity_load_many
    obtain ⟨e, he⟩ := Option.isSome_iff_exists.mp hq
    rw [entity_load_queued_register cfg t i c st e hce he]
    simp only
    have hq1 : (qFind (st.withQueue (qUpdate st.queue (t, "retrieve", toString i)
        (fun e => ⟨e.success ++ [some c], e.error⟩))).queue
        (t, "retrieve", toString i)).isSome = true := by
      simp [qFind_qUpdate, he]
    rw [ih _ hq1]
    simp only [St.withQueue_queue]
    rw [qUpdate_qUpdate]
    have : (fun e : QEntry =>
        (⟨(⟨e.success ++ [some c], e.error⟩ : QEntry).success ++ rest.map some,
          (⟨e.success ++ [some c], e.error⟩ : QEntry).error⟩ : QEntry)) =
        fun e : QEntry => (⟨e.success ++ (c :: rest).map some, e.error⟩ : QEntry) := by
      funext e
      simp
    rw [qUpdate_congr _ _ _ _ (fun e => congrFun this e)]
    exact St.withQueue_withQueue st _ _

@[simp] theorem St.withTrace_self (st : St) : st.withTrace st.trace = st := rfl

@[simp] theorem St.withTrace_withTrace (st : St) (a b : List Event) :
    (st.withTrace a).withTrace b = st.withTrace b := rfl

theorem invoke_all_eval (cfg : Config) (cbs : List Nat) (data : JVal)
    (hcb : ∀ c ∈ cbs, cfg.faults.cbF c = false) :
    ∀ st : St, _invoke_success_callbacks cfg (cbs.map some) data st =
      (st.withTrace (st.trace ++ cbs.map (fun c => .invokeSuccess c data)), .ok ()) := by
  induction cbs with
  | nil =>
    intro st
    simp [_invoke_success_callbacks, jsmPure]
  | cons c rest ih =>
    intro st
    have hc : cfg.faults.cbF c = false := hcb c (List.mem_cons_self c rest)
    have hrest : ∀ x ∈ rest, cfg.faults.cbF x = false :=
      fun x hx => hcb x (List.mem_cons_of_mem c hx)
    simp only [List.map_cons]
    unfold _invoke_success_callbacks
    simp [jsm_bind_eq, jsm_pure_eq, jsmBind, jsmPure, invoke_callback, hc, ih hrest,
      St.addEvent]

theorem call_success_eval_nocache (cfg : Config) (t : String) (idv data : JVal)
    (cbs : List Nat) (er : List (Option Nat)) (st : St)
    (hq : qFind st.queue (t, "retrieve", jsToString idv) = some ⟨cbs.map some, er⟩)
    (hcb : ∀ c ∈ cbs, cfg.faults.cbF c = false) :
    entity_load_call_success cfg t idv false data st =
      (⟨qUpdate st.queue (t, "retrieve", jsToString idv) (fun e => ⟨[], e.error⟩),
        st.storage, st.trace ++ cbs.map (fun c => .invokeSuccess c data)⟩,
        .ok .vUndefined) := by
  obtain ⟨q0, s0, tr0⟩ := st
  unfold entity_load_call_success
  apply jsCatchV_ok
  simp [jsm_bind_eq, jsm_pure_eq, jsmBind, jsmPure, _services_queue_success_callbacks,
    _services_queue_clear_success, hq, invoke_all_eval cfg cbs data hcb, St.withTrace,
    St.withQueue]

theorem call_success_eval_cache (cfg : Config) (t : String) (idv data : JVal)
    (cbs : List Nat) (er : List (Option Nat)) (st : St)
    (hce : cfg.cachingEnabled = true)
    (hset : cfg.faults.setF (entity_local_storage_key t idv) = false)
    (hq : qFind st.queue (t, "retrieve", jsToString idv) = some ⟨cbs.map some, er⟩)
    (hcb : ∀ c ∈ cbs, cfg.faults.cbF c = false) :
    entity_load_call_success cfg t idv true data st =
      (⟨qUpdate st.queue (t, "retrieve", jsToString idv) (fun e => ⟨[], e.error⟩),
        sSet st.storage (entity_local_storage_key t idv)
          (setField data "expiration"
            (if cfg.cacheExpiration = 0 then .vNum 0
             else .vNum (cfg.now + cfg.cacheExpiration))),
        st.trace ++ cbs.map (fun c => .invokeSuccess c
          (setField data "expiration"
            (if cfg.cacheExpiration = 0 then .vNum 0
             else .vNum (cfg.now + cfg.cacheExpiration))))⟩,
        .ok .vUndefined) := by
  obtain ⟨q0, s0, tr0⟩ := st
  unfold entity_load_call_success
  apply jsCatchV_ok
  simp [jsm_bind_eq, jsm_pure_eq, jsmBind, jsmPure, set_expiration_eval cfg data _ hce,
    cache_save_eval, hset, _services_queue_success_callbacks,
    _services_queue_clear_success, hq, invoke_all_eval cfg cbs _ hcb, St.withTrace,
    St.withQueue, St.withStorage]

theorem entity_load_hit_queued (cfg : Config) (t : String) (i : Int) (v : JVal) (E : Int)
    (cb : Nat) (oerr : Option Nat) (st : St) (e : QEntry)
    (hce : cfg.cachingEnabled = true)
    (hq : qFind st.queue (t, "retrieve", toString i) = some e)
    (hget : cfg.faults.getF (entity_local_storage_key t (.vNum i)) = false)
    (hcbf : cfg.faults.cbF cb = false)
    (hs : sFind st.storage (entity_local_storage_key t (.vNum i)) = some v)
    (hexp : getField v "expiration" = .vNum E)
    (hval : E = 0 ∨ cfg.now ≤ E)
    (hdg : cfg.dgReloading = false) :
    entity_load cfg t (.vNum i) ⟨some cb, oerr, false⟩ st =
      (st.addEvent (.invokeSuccess cb v), .ok .vUndefined) := by
  have htr : truthy v = true := truthy_of_getField_vNum v "expiration" E hexp
  have hload := cache_load_hit cfg t (.vNum i) v E (some ⟨some cb, oerr, false⟩) st hget hs
    hexp hval hdg (by simp)
  unfold entity_load
  apply jsCatchV_ok
  simp [jsm_bind_eq, jsm_pure_eq, jsmBind, jsmPure, is_int, entity_id_parse, jsToString,
    entity_caching_enabled, hce, _services_queue_already_queued, hq, hload, htr,
    invoke_callback, hcbf]

theorem entity_load_hit_not_queued (cfg : Config) (t : String) (i : Int) (v : JVal)
    (E : Int) (cb : Nat) (oerr : Option Nat) (st : St)
    (hce : cfg.cachingEnabled = true)
    (hq : qFind st.queue (t, "retrieve", toString i) = none)
    (hget : cfg.faults.getF (entity_local_storage_key t (.vNum i)) = false)
    (hcbf : cfg.faults.cbF cb = false)
    (hs : sFind st.storage (entity_local_storage_key t (.vNum i)) = some v)
    (hexp : getField v "expiration" = .vNum E)
    (hval : E = 0 ∨ cfg.now ≤ E)
    (hdg : cfg.dgReloading = false) :
    entity_load cfg t (.vNum i) ⟨some cb, oerr, false⟩ st =
      (⟨st.queue ++ [((t, "retrieve", toString i), ⟨[some cb], []⟩)],
        st.storage, st.trace ++ [.invokeSuccess cb v]⟩, .ok .vUndefined) := by
  obtain ⟨q0, s0, tr0⟩ := st
  have htr : truthy v = true := truthy_of_getField_vNum v "expiration" E hexp
  simp only [qFind] at hq
  have hload : ∀ st2 : St,
      sFind st2.storage (entity_local_storage_key t (.vNum i)) = some v →
      _entity_local_storage_load cfg t (.vNum i) (some ⟨some cb, oerr, false⟩) st2 =
        (st2, .ok v) :=
    fun st2 hsx =>
      cache_load_hit cfg t (.vNum i) v E (some ⟨some cb, oerr, false⟩) st2 hget hsx hexp
        hval hdg (by simp)
  unfold entity_load
  apply jsCatchV_ok
  simp [jsm_bind_eq, jsm_pure_eq, jsmBind, jsmPure, is_int, entity_id_parse, jsToString,
    entity_caching_enabled, hce, _services_queue_already_queued, hq,
    _services_queue_add_to_queue, _services_queue_callback_add, hload, hs, htr,
    invoke_callback, hcbf, qUpdate_append, qUpdate_not_found, qUpdate, qFind,
    St.withQueue, St.addEvent, St.withTrace]

theorem entity_delete_dispatch_eval (cfg : Config) (t : String) (ids : JVal) (o : Opts)
    (st : St)
    (hf : function_exists cfg (t ++ "_delete") = true)
    (hd : cfg.faults.dispF (t ++ "_delete") = false) :
    entity_delete cfg t ids o st =
      (st.addEvent (.dispatch (t ++ "_delete") ids), .ok .vUndefined) := by
  unfold entity_delete
  apply jsCatchV_ok
  simp [jsm_bind_eq, jsm_pure_eq, jsmBind, jsmPure, hf, dispatchRemote, hd]

theorem entity_delete_storage_inv (cfg : Config) (t : String) (ids : JVal) (o : Opts)
    (st : St) : ((entity_delete cfg t ids o) st).1.storage = st.storage := by
  unfold entity_delete jsCatchV
  simp only [jsm_bind_eq, jsm_pure_eq]
  by_cases hf : function_exists cfg (t ++ "_delete") = true
  · by_cases hd : cfg.faults.dispF (t ++ "_delete") = true <;>
      simp [jsmBind, jsmPure, hf, hd, dispatchRemote, consoleLog, St.addEvent,
        St.withTrace]
  · simp [jsmBind, jsmPure, hf, consoleLog, St.addEvent, St.withTrace]

/-- Claim C9: `entity_delete` dispatches only to the type's remote delete
handler and performs no cache or queue interaction — for every input and
every fault pattern the queue registry and the persisted store are exactly
as they were before the call, and when the delete handler exists and does
not itself throw, the whole observable effect is the single dispatch
event. -/
theorem C9_delete_non_interaction (cfg : Config) (t : String) (ids : JVal) (o : Opts)
    (st : St) :
    ((entity_delete cfg t ids o) st).1.queue = st.queue ∧
    ((entity_delete cfg t ids o) st).1.storage = st.storage ∧
    (function_exists cfg (t ++ "_delete") = true →
      cfg.faults.dispF (t ++ "_delete") = false →
      entity_delete cfg t ids o st =
        (st.addEvent (.dispatch (t ++ "_delete") ids), .ok .vUndefined)) := by
  exact ⟨queueInv_entity_delete cfg t ids o st, entity_delete_storage_inv cfg t ids o st,
    fun hf hd => entity_delete_dispatch_eval cfg t ids o st hf hd⟩

/-- Claim C5: every operation of the core (the facade operations, the
primary-key lookup, the cache- and index-store helpers, and the retrieve
callback wrappers) catches any internal fault at its own boundary and never
lets a thrown error escape to the caller: for every configuration —
including every fault-oracle pattern for storage, callbacks, and remote
handlers — and every starting state, running the operation yields a normal
(non-thrown) result. -/
theorem C5_fault_boundaries (cfg : Config) (op : Op) (st : St) :
    ((runOp cfg op) st).2.isOk = true := by
  cases op with
  | opLoad t ids o =>
    simp only [runOp, entity_load]
    exact jsCatchV_isOk _ _ _ st
  | opSave t b e o =>
    simp only [runOp, entity_save]
    exact jsCatchV_isOk _ _ _ st
  | opDelete t ids o =>
    simp only [runOp, entity_delete]
    exact jsCatchV_isOk _ _ _ st
  | opPrimaryKey t =>
    simp only [runOp, entity_primary_key]
    exact jsCatchV_isOk _ _ _ st
  | opCacheLoad t id o =>
    simp only [runOp, _entity_local_storage_load]
    exact jsCatchV_isOk _ _ _ st
  | opCacheSave t id e =>
    simp only [runOp, _entity_local_storage_save]
    exact jsCatchV_isOk _ _ _ st
  | opCacheDelete t id =>
    simp only [runOp, _entity_local_storage_delete]
    exact jsCatchV_isOk _ _ _ st
  | opIndexLoad t p o =>
    simp only [runOp, _entity_index_local_storage_load]
    exact jsCatchV_isOk _ _ _ st
  | opIndexSave t p r =>
    simp only [runOp, _entity_index_local_storage_save]
    exact jsCatchV_isOk _ _ _ st
  | opIndexDelete p =>
    simp only [runOp, _entity_index_local_storage_delete]
    exact jsCatchV_isOk _ _ _ st
  | opRetrieveSuccess t id ce data =>
    simp only [runOp, entity_load_call_success]
    exact jsCatchV_isOk _ _ _ st
  | opRetrieveError o xhr status msg =>
    simp only [runOp, entity_load_call_error]
    exact jsCatchV_isOk _ _ _ st

/-- Function names registered on `window` in the concrete test
configurations used by the witness theorems. -/
def witness_functions : List String :=
  ["comment_create", "comment_update", "file_create", "file_update", "node_create",
   "node_update", "user_create", "user_update", "taxonomy_term_create",
   "taxonomy_term_update", "taxonomy_vocabulary_create", "taxonomy_vocabulary_update",
   "node_retrieve", "node_delete"]

/-- A concrete configuration with entity caching disabled and no faults. -/
def cfgOff : Config :=
  ⟨false, 0, 100, witness_functions, fun _ => .vUndefined, "und", false, none, noFaults⟩

/-- A concrete configuration with entity caching enabled (TTL 50, now 100)
and no faults. -/
def cfgOn : Config :=
  ⟨true, 50, 100, witness_functions, fun _ => .vUndefined, "und", false, none, noFaults⟩

/-- The empty starting state. -/
def stEmpty : St := ⟨[], [], []⟩

/-- Claim C6 counterexample: loading with a non integer-like id (an array
of ids) and a supplied error callback (tag 5) produces only the log entry —
the error callback is never invoked, contradicting the claim that the
descriptive error is surfaced through `options.error` when supplied. -/
theorem C6_counterexample :
    ((entity_load cfgOff "node" (.vArr [.vNum 1, .vNum 2]) ⟨none, some 5, false⟩)
        stEmpty).1.trace =
      [.log "entity_load(node) - only single ids supported!"] ∧
    Event.invokeError 5 "entity_load(node) - only single ids supported!" ∉
      ((entity_load cfgOff "node" (.vArr [.vNum 1, .vNum 2]) ⟨none, some 5, false⟩)
        stEmpty).1.trace := by
  have h := entity_load_nonint cfgOff "node" (.vArr [.vNum 1, .vNum 2])
    ⟨none, some 5, false⟩ stEmpty rfl
  constructor
  · rw [h]
    rfl
  · rw [h]
    simp [St.addEvent, St.withTrace, stEmpty]

/-- Claim C6 (amended): for every `entity_load` whose id is not a single
integer-like value, the operation fails fast — no queue mutation, no cache
access, no remote dispatch — and the failure is only logged; the
`options.error` callback is not invoked even when one is supplied. -/
theorem C6_non_integer_id_rejection (cfg : Config) (t : String) (ids : JVal) (o : Opts)
    (st : St) (his : is_int ids = false) :
    entity_load cfg t ids o st =
      (st.addEvent (.log ("entity_load(" ++ t ++ ") - only single ids supported!")),
        .ok .vUndefined) :=
  entity_load_nonint cfg t ids o st his

/-- Claim C6 witness: the amended claim at the counterexample input. -/
theorem C6_witness :
    is_int (.vArr [.vNum 1, .vNum 2]) = false ∧
    entity_load cfgOff "node" (.vArr [.vNum 1, .vNum 2]) ⟨none, some 5, false⟩ stEmpty =
      (stEmpty.addEvent (.log "entity_load(node) - only single ids supported!"),
        .ok .vUndefined) :=
  ⟨rfl, C6_non_integer_id_rejection cfgOff "node" (.vArr [.vNum 1, .vNum 2])
    ⟨none, some 5, false⟩ stEmpty rfl⟩

/-- Claim C10: with entity caching enabled, the success wrapper built by
`entity_load` injects an `expiration` field into the entity returned by the
remote retrieve handler before writing it to the cache and before fanning
it out, so every queued success callback observes the entity with the
injected expiration field (and the cached copy is that same object). -/
theorem C10_wrapper_expiration_injection (cfg : Config) (t : String) (idv data : JVal)
    (cbs : List Nat) (er : List (Option Nat)) (st : St)
    (hce : cfg.cachingEnabled = true)
    (hnf : cfg.faults = noFaults)
    (hq : qFind st.queue (t, "retrieve", jsToString idv) = some ⟨cbs.map some, er⟩) :
    ((entity_load_call_success cfg t idv true data) st).1.trace =
      st.trace ++ cbs.map (fun c => .invokeSuccess c (setField data "expiration"
        (if cfg.cacheExpiration = 0 then .vNum 0
         else .vNum (cfg.now + cfg.cacheExpiration)))) ∧
    sFind ((entity_load_call_success cfg t idv true data) st).1.storage
        (entity_local_storage_key t idv) =
      some (setField data "expiration"
        (if cfg.cacheExpiration = 0 then .vNum 0
         else .vNum (cfg.now + cfg.cacheExpiration))) := by
  have hset : cfg.faults.setF (entity_local_storage_key t idv) = false := by
    rw [hnf]
    rfl
  have hcb : ∀ c ∈ cbs, cfg.faults.cbF c = false := by
    intro c _
    rw [hnf]
    rfl
  have h := call_success_eval_cache cfg t idv data cbs er st hce hset hq hcb
  rw [h]
  refine ⟨rfl, ?_⟩
  rw [sFind_sSet]
  simp

/-- The queue state used by the C10 witness: two success callbacks (tags 1
and 2) queued for (node, retrieve, 5). -/
def stQ10 : St := ⟨[(("node", "retrieve", "5"), ⟨[some 1, some 2], []⟩)], [], []⟩

/-- Claim C10 witness: the wrapper at a concrete queue state. -/
theorem C10_witness :
    cfgOn.cachingEnabled = true ∧ cfgOn.faults = noFaults ∧
    qFind stQ10.queue ("node", "retrieve", jsToString (.vNum 5)) =
      some ⟨[1, 2].map some, []⟩ ∧
    (((entity_load_call_success cfgOn "node" (.vNum 5) true (.vObj [("nid", .vNum 5)]))
        stQ10).1.trace =
      stQ10.trace ++ [1, 2].map (fun c => .invokeSuccess c
        (setField (.vObj [("nid", .vNum 5)]) "expiration"
          (if cfgOn.cacheExpiration = 0 then .vNum 0
           else .vNum (cfgOn.now + cfgOn.cacheExpiration)))) ∧
    sFind ((entity_load_call_success cfgOn "node" (.vNum 5) true
          (.vObj [("nid", .vNum 5)]) stQ10).1.storage)
        (entity_local_storage_key "node" (.vNum 5)) =
      some (setField (.vObj [("nid", .vNum 5)]) "expiration"
        (if cfgOn.cacheExpiration = 0 then .vNum 0
         else .vNum (cfgOn.now + cfgOn.cacheExpiration)))) :=
  ⟨rfl, rfl, rfl,
    C10_wrapper_expiration_injection cfgOn "node" (.vNum 5) (.vObj [("nid", .vNum 5)])
      [1, 2] [] stQ10 rfl rfl rfl⟩

/-- Claim C9 witness: deleting a node with the delete handler registered. -/
theorem C9_witness :
    function_exists cfgOff ("node" ++ "_delete") = true ∧
    cfgOff.faults.dispF ("node" ++ "_delete") = false ∧
    entity_delete cfgOff "node" (.vNum 4) ⟨none, none, false⟩ stEmpty =
      (stEmpty.addEvent (.dispatch ("node" ++ "_delete") (.vNum 4)), .ok .vUndefined) :=
  ⟨rfl, rfl,
    (C9_delete_non_interaction cfgOff "node" (.vNum 4) ⟨none, none, false⟩ stEmpty).2.2
      rfl rfl⟩

/-- The hit delivered by a cache-store read: the returned value when the
read succeeded with a truthy (present, non-expired) entity, `none` on any
miss (`false`, `null`, or a caught fault's `undefined`). -/
def cacheHit (r : St × JsResult JVal) : Option JVal :=
  match r.2 with
  | .ok v => if truthy v then some v else none
  | .thrown _ => none

/-- Claim C2: a stored cache entry whose expiration `E` is nonzero with
current time past `E` is never returned as a hit and is removed from the
persisted store as a side effect of the read (whatever the options
argument); a stored entry with expiration `0` is never treated as expired —
with no reset request and no page-reload context the read returns the
stored entity unchanged, regardless of the current time. -/
theorem C2_cache_expiration_enforcement (cfg : Config) (t : String) (i : Int) (v : JVal)
    (E : Int) (options : Option Opts) (st : St)
    (hnf : cfg.faults = noFaults)
    (hs : sFind st.storage (entity_local_storage_key t (.vNum i)) = some v)
    (hexp : getField v "expiration" = .vNum E) :
    (E ≠ 0 → cfg.now > E →
      cacheHit ((_entity_local_storage_load cfg t (.vNum i) options) st) = none ∧
      sFind ((_entity_local_storage_load cfg t (.vNum i) options) st).1.storage
        (entity_local_storage_key t (.vNum i)) = none) ∧
    (E = 0 → cfg.dgReloading = false →
      (match options with | some o => o.reset = false | none => True) →
      (_entity_local_storage_load cfg t (.vNum i) options) st = (st, .ok v)) := by
  have hget : cfg.faults.getF (entity_local_storage_key t (.vNum i)) = false := by
    rw [hnf]
    rfl
  have hrem : cfg.faults.removeF (entity_local_storage_key t (.vNum i)) = false := by
    rw [hnf]
    rfl
  constructor
  · intro hE hnow
    cases options with
    | none =>
      have h := cache_load_expired cfg t (.vNum i) v E none st hget hrem hs hexp hE hnow
        trivial
      rw [h]
      constructor
      · simp [cacheHit, truthy]
      · rw [St.withStorage_storage, sFind_sRemove]
        simp
    | some o =>
      by_cases hr : o.reset = true
      · have h := cache_load_reset cfg t (.vNum i) o st hget hrem hr
        rw [h]
        constructor
        · simp [cacheHit, truthy]
        · rw [St.withStorage_storage, sFind_sRemove]
          simp
      · have hr' : o.reset = false := by simpa using hr
        have h := cache_load_expired cfg t (.vNum i) v E (some o) st hget hrem hs hexp hE
          hnow (by simpa using hr')
        rw [h]
        constructor
        · simp [cacheHit, truthy]
        · rw [St.withStorage_storage, sFind_sRemove]
          simp
  · intro h0 hdg hopt
    exact cache_load_hit cfg t (.vNum i) v E options st hget hs hexp (Or.inl h0) hdg hopt

/-- An entity cached for node 3 with expiration 50 (expired at time 100). -/
def entExp : JVal := .vObj [("nid", .vNum 3), ("expiration", .vNum 50)]

/-- A state whose cache holds `entExp` under `node_3`. -/
def stExp : St := ⟨[], [("node_3", entExp)], []⟩

/-- An entity cached for node 3 with expiration 0 (never expires). -/
def entNever : JVal := .vObj [("nid", .vNum 3), ("expiration", .vNum 0)]

/-- A state whose cache holds `entNever` under `node_3`. -/
def stNever : St := ⟨[], [("node_3", entNever)], []⟩

/-- Claim C2 witness: the expired entry (E = 50, now = 100) misses and is
removed; the never-expiring entry (E = 0) is returned unchanged. -/
theorem C2_witness :
    (cacheHit ((_entity_local_storage_load cfgOn "node" (.vNum 3) none) stExp) = none ∧
     sFind ((_entity_local_storage_load cfgOn "node" (.vNum 3) none) stExp).1.storage
       (entity_local_storage_key "node" (.vNum 3)) = none) ∧
    (_entity_local_storage_load cfgOn "node" (.vNum 3) none) stNever =
      (stNever, .ok entNever) := by
  have h1 := (C2_cache_expiration_enforcement cfgOn "node" 3 entExp 50 none stExp rfl rfl
    rfl).1 (by decide) (by decide)
  have h2 := (C2_cache_expiration_enforcement cfgOn "node" 3 entNever 0 none stNever rfl
    rfl rfl).2 rfl rfl trivial
  exact ⟨h1, h2⟩

/-- Claim C3: with entity caching enabled and a valid (present,
non-expired, no reset requested, no reload context) cache entry for
(type, id), `entity_load` invokes the caller's success callback with the
cached entity and returns with no remote retrieve dispatch — whatever the
dedup-queue state for (type, retrieve, id). -/
theorem C3_cache_hit_bypass (cfg : Config) (t : String) (i : Int) (v : JVal) (E : Int)
    (cb : Nat) (oerr : Option Nat) (st : St)
    (hce : cfg.cachingEnabled = true)
    (hnf : cfg.faults = noFaults)
    (hdg : cfg.dgReloading = false)
    (hs : sFind st.storage (entity_local_storage_key t (.vNum i)) = some v)
    (hexp : getField v "expiration" = .vNum E)
    (hval : E = 0 ∨ cfg.now ≤ E) :
    ((entity_load cfg t (.vNum i) ⟨some cb, oerr, false⟩) st).1.trace =
      st.trace ++ [.invokeSuccess cb v] ∧
    ((entity_load cfg t (.vNum i) ⟨some cb, oerr, false⟩) st).1.storage = st.storage ∧
    ((entity_load cfg t (.vNum i) ⟨some cb, oerr, false⟩) st).2 = .ok .vUndefined := by
  have hget : cfg.faults.getF (entity_local_storage_key t (.vNum i)) = false := by
    rw [hnf]
    rfl
  have hcbf : cfg.faults.cbF cb = false := by
    rw [hnf]
    rfl
  cases hqc : qFind st.queue (t, "retrieve", toString i) with
  | some e =>
    have h := entity_load_hit_queued cfg t i v E cb oerr st e hce hqc hget hcbf hs hexp
      hval hdg
    rw [h]
    exact ⟨rfl, rfl, rfl⟩
  | none =>
    have h := entity_load_hit_not_queued cfg t i v E cb oerr st hce hqc hget hcbf hs hexp
      hval hdg
    rw [h]
    exact ⟨rfl, rfl, rfl⟩

/-- Claim C3 witness: a cache hit is served both when the key is already
queued and (C4's witness covers the not-queued side) with no dispatch. -/
theorem C3_witness :
    sFind stNever.storage (entity_local_storage_key "node" (.vNum 3)) = some entNever ∧
    getField entNever "expiration" = .vNum 0 ∧
    ((entity_load cfgOn "node" (.vNum 3) ⟨some 9, none, false⟩) stNever).1.trace =
      stNever.trace ++ [.invokeSuccess 9 entNever] ∧
    ((entity_load cfgOn "node" (.vNum 3) ⟨some 9, none, false⟩) stNever).1.storage =
      stNever.storage ∧
    ((entity_load cfgOn "node" (.vNum 3) ⟨some 9, none, false⟩) stNever).2 =
      .ok .vUndefined := by
  have h := C3_cache_hit_bypass cfgOn "node" 3 entNever 0 9 none stNever rfl rfl rfl rfl
    rfl (Or.inl rfl)
  exact ⟨rfl, rfl, h.1, h.2.1, h.2.2⟩

/-- Claim C4: when (type, retrieve, id) is not yet queued, caching is
enabled, and a valid cache entry exists, `entity_load` creates the queue
entry and registers the caller's success callback on it, then serves the
cache hit and returns leaving that entry in place — and no sequence of
subsequent operations of this core (under any configurations) ever removes
it, so `isQueuedKey` stays true. -/
theorem C4_orphaned_queue_entry (cfg : Config) (t : String) (i : Int) (v : JVal) (E : Int)
    (cb : Nat) (oerr : Option Nat) (st : St)
    (hce : cfg.cachingEnabled = true)
    (hnf : cfg.faults = noFaults)
    (hdg : cfg.dgReloading = false)
    (hq : qFind st.queue (t, "retrieve", toString i) = none)
    (hs : sFind st.storage (entity_local_storage_key t (.vNum i)) = some v)
    (hexp : getField v "expiration" = .vNum E)
    (hval : E = 0 ∨ cfg.now ≤ E) :
    qFind ((entity_load cfg t (.vNum i) ⟨some cb, oerr, false⟩) st).1.queue
      (t, "retrieve", toString i) = some ⟨[some cb], []⟩ ∧
    ((entity_load cfg t (.vNum i) ⟨some cb, oerr, false⟩) st).1.trace =
      st.trace ++ [.invokeSuccess cb v] ∧
    ∀ cops : List (Config × Op),
      isQueuedKey (t, "retrieve", toString i)
        (runOps cops ((entity_load cfg t (.vNum i) ⟨some cb, oerr, false⟩) st).1) =
        true := by
  have hget : cfg.faults.getF (entity_local_storage_key t (.vNum i)) = false := by
    rw [hnf]
    rfl
  have hcbf : cfg.faults.cbF cb = false := by
    rw [hnf]
    rfl
  have h := entity_load_hit_not_queued cfg t i v E cb oerr st hce hq hget hcbf hs hexp
    hval hdg
  have hfind : qFind ((entity_load cfg t (.vNum i) ⟨some cb, oerr, false⟩) st).1.queue
      (t, "retrieve", toString i) = some ⟨[some cb], []⟩ := by
    rw [h]
    simp [qFind_append, hq, qFind]
  refine ⟨hfind, ?_, ?_⟩
  · rw [h]
  · intro cops
    apply runOps_preserves_queued
    unfold isQueuedKey
    rw [hfind]
    rfl

/-- Claim C4 witness: the orphaned entry after a cache-hit load on a fresh
queue survives a subsequent delete, save, and cache read. -/
theorem C4_witness :
    qFind ((entity_load cfgOn "node" (.vNum 3) ⟨some 9, none, false⟩) stNever).1.queue
      ("node", "retrieve", toString (3 : Int)) = some ⟨[some 9], []⟩ ∧
    ((entity_load cfgOn "node" (.vNum 3) ⟨some 9, none, false⟩) stNever).1.trace =
      stNever.trace ++ [.invokeSuccess 9 entNever] ∧
    isQueuedKey ("node", "retrieve", toString (3 : Int))
      (runOps [(cfgOn, .opDelete "node" (.vNum 3) ⟨none, none, false⟩),
               (cfgOff, .opSave "node" "article" (.vObj [("title", .vStr "x")])
                 ⟨none, none, false⟩),
               (cfgOn, .opCacheLoad "node" (.vNum 3) none)]
        ((entity_load cfgOn "node" (.vNum 3) ⟨some 9, none, false⟩) stNever).1) =
      true := by
  have h := C4_orphaned_queue_entry cfgOn "node" 3 entNever 0 9 none stNever rfl rfl rfl
    rfl rfl rfl (Or.inl rfl)
  exact ⟨h.1, h.2.1, h.2.2 _⟩

/-- The create/update handler names `entity_save` can dispatch to. -/
def save_handler_names : List String :=
  ["comment_create", "comment_update", "file_create", "file_update", "node_create",
   "node_update", "user_create", "user_update", "taxonomy_term_create",
   "taxonomy_term_update", "taxonomy_vocabulary_create", "taxonomy_vocabulary_update"]

/-- Claim C7 counterexample: saving a `file` entity whose primary-key field
`fid` is present (value 7) dispatches `file_create` — never `file_update` —
contradicting the claim that every supported type dispatches the update
handler when its primary-key field is present. -/
theorem C7_counterexample :
    ((entity_save cfgOff "file" "image" (.vObj [("fid", .vNum 7)]) ⟨none, none, false⟩)
        stEmpty).1.trace =
      [.dispatch "file_create" (.vObj [("fid", .vNum 7)])] ∧
    Event.dispatch "file_update" (.vObj [("fid", .vNum 7)]) ∉
      ((entity_save cfgOff "file" "image" (.vObj [("fid", .vNum 7)]) ⟨none, none, false⟩)
        stEmpty).1.trace := by
  have h : ((entity_save cfgOff "file" "image" (.vObj [("fid", .vNum 7)])
      ⟨none, none, false⟩) stEmpty).1.trace =
      [.dispatch "file_create" (.vObj [("fid", .vNum 7)])] := rfl
  refine ⟨h, ?_⟩
  rw [h]
  simp

/-- Claim C7 (amended): for every supported entity type except `file`,
`entity_save` dispatches the type's create handler when the type's
primary-key field is absent (falsy) on the entity and the update handler
when it is present; `file` always dispatches `file_create`; and a `node`
entity without a language field has the default language injected into it
before dispatch. -/
theorem C7_save_dispatch_selection (cfg : Config) (b : String) (entity : JVal) (o : Opts)
    (st : St)
    (hnf : cfg.faults = noFaults)
    (hfns : ∀ n ∈ save_handler_names, function_exists cfg n = true) :
    entity_save cfg "comment" b entity o st =
      (st.addEvent (.dispatch
        (if truthy (getField entity "cid") then "comment_update" else "comment_create")
        entity), .ok .vUndefined) ∧
    entity_save cfg "file" b entity o st =
      (st.addEvent (.dispatch "file_create" entity), .ok .vUndefined) ∧
    (let e := if truthy (getField entity "language") then entity
              else setField entity "language" (.vStr (language_default cfg))
     entity_save cfg "node" b entity o st =
      (st.addEvent (.dispatch
        (if truthy (getField e "nid") then "node_update" else "node_create") e),
        .ok .vUndefined)) ∧
    entity_save cfg "user" b entity o st =
      (st.addEvent (.dispatch
        (if truthy (getField entity "uid") then "user_update" else "user_create")
        entity), .ok .vUndefined) ∧
    entity_save cfg "taxonomy_term" b entity o st =
      (st.addEvent (.dispatch
        (if truthy (getField entity "tid") then "taxonomy_term_update"
         else "taxonomy_term_create") entity), .ok .vUndefined) ∧
    entity_save cfg "taxonomy_vocabulary" b entity o st =
      (st.addEvent (.dispatch
        (if truthy (getField entity "vid") then "taxonomy_vocabulary_update"
         else "taxonomy_vocabulary_create") entity), .ok .vUndefined) := by
  have hdisp : ∀ s, cfg.faults.dispF s = false := by
    rw [hnf]
    intro s
    rfl
  have h01 := hfns "comment_create" (by simp [save_handler_names])
  have h02 := hfns "comment_update" (by simp [save_handler_names])
  have h03 := hfns "file_create" (by simp [save_handler_names])
  have h05 := hfns "node_create" (by simp [save_handler_names])
  have h06 := hfns "node_update" (by simp [save_handler_names])
  have h07 := hfns "user_create" (by simp [save_handler_names])
  have h08 := hfns "user_update" (by simp [save_handler_names])
  have h09 := hfns "taxonomy_term_create" (by simp [save_handler_names])
  have h10 := hfns "taxonomy_term_update" (by simp [save_handler_names])
  have h11 := hfns "taxonomy_vocabulary_create" (by simp [save_handler_names])
  have h12 := hfns "taxonomy_vocabulary_update" (by simp [save_handler_names])
  refine ⟨?_, ?_, ?_, ?_, ?_, ?_⟩
  · unfold entity_save
    by_cases hc : truthy (getField entity "cid") = true <;>
      · apply jsCatchV_ok
        simp [jsm_bind_eq, jsm_pure_eq, jsmBind, jsmPure, hc, h01, h02, dispatchRemote,
          hdisp]
  · unfold entity_save
    apply jsCatchV_ok
    simp [jsm_bind_eq, jsm_pure_eq, jsmBind, jsmPure, h03, dispatchRemote, hdisp]
  · unfold entity_save
    by_cases hl : truthy (getField entity "language") = true
    · by_cases hn : truthy (getField entity "nid") = true <;>
        · apply jsCatchV_ok
          simp [jsm_bind_eq, jsm_pure_eq, jsmBind, jsmPure, hl, hn, h05, h06,
            dispatchRemote, hdisp]
    · by_cases hn : truthy (getField
          (setField entity "language" (.vStr (language_default cfg))) "nid") = true <;>
        · apply jsCatchV_ok
          simp [jsm_bind_eq, jsm_pure_eq, jsmBind, jsmPure, hl, hn, h05, h06,
            dispatchRemote, hdisp]
  · unfold entity_save
    by_cases hc : truthy (getField entity "uid") = true <;>
      · apply jsCatchV_ok
        simp [jsm_bind_eq, jsm_pure_eq, jsmBind, jsmPure, hc, h07, h08, dispatchRemote,
          hdisp]
  · unfold entity_save
    by_cases hc : truthy (getField entity "tid") = true <;>
      · apply jsCatchV_ok
        simp [jsm_bind_eq, jsm_pure_eq, jsmBind, jsmPure, hc, h09, h10, dispatchRemote,
          hdisp]
  · unfold entity_save
    by_cases hc : truthy (getField entity "vid") = true <;>
      · apply jsCatchV_ok
        simp [jsm_bind_eq, jsm_pure_eq, jsmBind, jsmPure, hc, h11, h12, dispatchRemote,
          hdisp]

/-- Claim C7 witness: the amended claim at a concrete configuration, with a
node entity lacking both `nid` and `language`. -/
theorem C7_witness :
    cfgOff.faults = noFaults ∧
    entity_save cfgOff "file" "image" (.vObj [("title", .vStr "x")]) ⟨none, none, false⟩
        stEmpty =
      (stEmpty.addEvent (.dispatch "file_create" (.vObj [("title", .vStr "x")])),
        .ok .vUndefined) ∧
    (let e := if truthy (getField (.vObj [("title", .vStr "x")]) "language")
              then (.vObj [("title", .vStr "x")])
              else setField (.vObj [("title", .vStr "x")]) "language"
                (.vStr (language_default cfgOff))
     entity_save cfgOff "node" "article" (.vObj [("title", .vStr "x")])
        ⟨none, none, false⟩ stEmpty =
      (stEmpty.addEvent (.dispatch
        (if truthy (getField e "nid") then "node_update" else "node_create") e),
        .ok .vUndefined)) := by
  have hfns : ∀ n ∈ save_handler_names, function_exists cfgOff n = true := by decide
  have h := C7_save_dispatch_selection cfgOff "article" (.vObj [("title", .vStr "x")])
    ⟨none, none, false⟩ stEmpty rfl hfns
  have h2 := C7_save_dispatch_selection cfgOff "image" (.vObj [("title", .vStr "x")])
    ⟨none, none, false⟩ stEmpty rfl hfns
  exact ⟨rfl, h2.2.1, h.2.2.1⟩

/-- Claim C1: for N (= 1 + length rest) concurrent `entity_load` calls for
the same (type, id) with entity caching disabled, exactly one outbound
remote retrieve dispatch occurs while the queue entry for
(type, retrieve, id) is unresolved — the trace of the whole batch extends
the initial trace by exactly that one dispatch event — and when the remote
handler invokes the success wrapper, every registered success callback is
invoked with the same entity payload in registration order, after which the
success-callback list is reset to empty. -/
theorem C1_dedup_single_dispatch_ordered_fanout (cfg : Config) (t : String) (i : Int)
    (c0 : Nat) (rest : List Nat) (data : JVal) (st : St)
    (hce : cfg.cachingEnabled = false)
    (hnf : cfg.faults = noFaults)
    (hsupp : in_array t entity_types = true)
    (hfn : function_exists cfg (t ++ "_retrieve") = true)
    (hq : qFind st.queue (t, "retrieve", toString i) = none) :
    (entity_load_many cfg t (.vNum i) (c0 :: rest) st).trace =
      st.trace ++ [.dispatch (t ++ "_retrieve") (.vNum i)] ∧
    qFind (entity_load_many cfg t (.vNum i) (c0 :: rest) st).queue
      (t, "retrieve", toString i) = some ⟨(c0 :: rest).map some, []⟩ ∧
    ((entity_load_call_success cfg t (.vNum i) false data)
        (entity_load_many cfg t (.vNum i) (c0 :: rest) st)).1.trace =
      (entity_load_many cfg t (.vNum i) (c0 :: rest) st).trace ++
        (c0 :: rest).map (fun c => .invokeSuccess c data) ∧
    qFind ((entity_load_call_success cfg t (.vNum i) false data)
        (entity_load_many cfg t (.vNum i) (c0 :: rest) st)).1.queue
      (t, "retrieve", toString i) = some ⟨[], []⟩ := by
  have hdf : cfg.faults.dispF (t ++ "_retrieve") = false := by
    rw [hnf]
    rfl
  have hcb : ∀ c ∈ (c0 :: rest), cfg.faults.cbF c = false := by
    intro c _
    rw [hnf]
    rfl
  have h1 := entity_load_first cfg t i ⟨some c0, none, false⟩ st hce hq hsupp hfn hdf
  have h1f : (entity_load cfg t (.vNum i) ⟨some c0, none, false⟩ st).1 =
      (⟨st.queue ++ [((t, "retrieve", toString i), ⟨[some c0], []⟩)], st.storage,
        st.trace ++ [.dispatch (t ++ "_retrieve") (.vNum i)]⟩ : St) := by
    rw [h1]
  have hqA : (qFind ((⟨st.queue ++ [((t, "retrieve", toString i), ⟨[some c0], []⟩)],
      st.storage, st.trace ++ [.dispatch (t ++ "_retrieve") (.vNum i)]⟩ : St)).queue
      (t, "retrieve", toString i)).isSome = true := by
    simp only [St.mk.injEq]
    rw [qFind_append, hq]
    simp [qFind]
  have hmany : entity_load_many cfg t (.vNum i) (c0 :: rest) st =
      (⟨qUpdate (st.queue ++ [((t, "retrieve", toString i), ⟨[some c0], []⟩)])
          (t, "retrieve", toString i)
          (fun e => ⟨e.success ++ rest.map some, e.error⟩),
        st.storage, st.trace ++ [.dispatch (t ++ "_retrieve") (.vNum i)]⟩ : St) := by
    show entity_load_many cfg t (.vNum i) rest
        ((entity_load cfg t (.vNum i) ⟨some c0, none, false⟩ st).1) = _
    rw [h1f]
    rw [entity_load_many_queued cfg t i rest _ hce hqA]
    rfl
  have hqfind : qFind (entity_load_many cfg t (.vNum i) (c0 :: rest) st).queue
      (t, "retrieve", toString i) = some ⟨(c0 :: rest).map some, []⟩ := by
    rw [hmany]
    show qFind (qUpdate (st.queue ++ [((t, "retrieve", toString i), ⟨[some c0], []⟩)])
      (t, "retrieve", toString i) (fun e => ⟨e.success ++ rest.map some, e.error⟩))
      (t, "retrieve", toString i) = _
    rw [qFind_qUpdate]
    rw [if_pos rfl, qFind_append, hq]
    simp [qFind]
  have h3 := call_success_eval_nocache cfg t (.vNum i) data (c0 :: rest) []
    (entity_load_many cfg t (.vNum i) (c0 :: rest) st) hqfind hcb
  refine ⟨?_, hqfind, ?_, ?_⟩
  · rw [hmany]
  · rw [h3]
  · rw [h3]
    show qFind (qUpdate (entity_load_many cfg t (.vNum i) (c0 :: rest) st).queue
      (t, "retrieve", toString i) (fun e => ⟨[], e.error⟩))
      (t, "retrieve", toString i) = _
    rw [qFind_qUpdate, if_pos rfl, hqfind]
    rfl

/-- Claim C1 witness: three concurrent loads of node 5 with caching
disabled — one dispatch, three ordered fan-out invocations, list reset. -/
theorem C1_witness :
    cfgOff.cachingEnabled = false ∧
    in_array "node" entity_types = true ∧
    function_exists cfgOff ("node" ++ "_retrieve") = true ∧
    qFind stEmpty.queue ("node", "retrieve", toString (5 : Int)) = none ∧
    ((entity_load_many cfgOff "node" (.vNum 5) [1, 2, 3] stEmpty).trace =
      stEmpty.trace ++ [.dispatch ("node" ++ "_retrieve") (.vNum 5)] ∧
    qFind (entity_load_many cfgOff "node" (.vNum 5) [1, 2, 3] stEmpty).queue
      ("node", "retrieve", toString (5 : Int)) = some ⟨[1, 2, 3].map some, []⟩ ∧
    ((entity_load_call_success cfgOff "node" (.vNum 5) false (.vObj [("nid", .vNum 5)]))
        (entity_load_many cfgOff "node" (.vNum 5) [1, 2, 3] stEmpty)).1.trace =
      (entity_load_many cfgOff "node" (.vNum 5) [1, 2, 3] stEmpty).trace ++
        [1, 2, 3].map (fun c => .invokeSuccess c (.vObj [("nid", .vNum 5)])) ∧
    qFind ((entity_load_call_success cfgOff "node" (.vNum 5) false
        (.vObj [("nid", .vNum 5)]))
        (entity_load_many cfgOff "node" (.vNum 5) [1, 2, 3] stEmpty)).1.queue
      ("node", "retrieve", toString (5 : Int)) = some ⟨[], []⟩) :=
  ⟨rfl, rfl, rfl, rfl,
    C1_dedup_single_dispatch_ordered_fanout cfgOff "node" 5 1 [2, 3]
      (.vObj [("nid", .vNum 5)]) stEmpty rfl rfl rfl rfl rfl⟩

/-- Entity 10 of the C8 index scenario (never expires). -/
def entC8a : JVal := .vObj [("nid", .vNum 10), ("expiration", .vNum 0)]

/-- Entity 11 of the C8 index scenario. -/
def entC8b : JVal := .vObj [("nid", .vNum 11), ("expiration", .vNum 0)]

/-- Entity 12 of the C8 index scenario. -/
def entC8c : JVal := .vObj [("nid", .vNum 12), ("expiration", .vNum 0)]

/-- Configuration for the C8 scenario: caching enabled with TTL 0 (entries
never expire), no faults. -/
def cfgC8 : Config :=
  ⟨true, 0, 1000, [], fun _ => .vUndefined, "und", false, none, noFaults⟩

/-- Starting state of the C8 scenario: the three entities individually
cached under their entity cache keys. -/
def stC8 : St :=
  ⟨[], [("node_10", entC8a), ("node_11", entC8b), ("node_12", entC8c)], []⟩

/-- The state after saving the index for query key Q from
[entC8a, entC8b, entC8c]. -/
def stC8saved : St :=
  ((_entity_index_local_storage_save cfgC8 "node" "Q" [entC8a, entC8b, entC8c]) stC8).1

/-- The index object the C8 save persists: entity type, expiration, and the
ordered primary-key values 10, 11, 12. -/
def idxC8 : JVal :=
  .vObj [("entity_type", .vStr "node"), ("expiration", .vNum 0),
    ("entity_ids", .vArr [.vNum 10, .vNum 11, .vNum 12])]

/-- Claim C8: saving an index for query key Q from an entity list with
primary-key values 10, 11, 12 stores exactly those ids; loading Q then
returns the sequence obtained by replaying ids 10, 11, 12 in order through
the entity cache store; and if entity 11's individual cache entry is
deleted between the save and the load, the reconstructed sequence has the
miss marker (`null`) at position 2 while positions 1 and 3 hold the cached
entities — and the index entry itself is left in place, neither repaired
nor invalidated. -/
theorem C8_index_reconstruction :
    sFind stC8saved.storage "Q" = some idxC8 ∧
    (_entity_index_local_storage_load cfgC8 "node" "Q" none) stC8saved =
      (stC8saved, .ok (.vArr [entC8a, entC8b, entC8c])) ∧
    ((_entity_index_local_storage_load cfgC8 "node" "Q" none)
        ((_entity_local_storage_delete cfgC8 "node" (.vNum 11)) stC8saved).1).2 =
      .ok (.vArr [entC8a, .vNull, entC8c]) ∧
    sFind ((_entity_index_local_storage_load cfgC8 "node" "Q" none)
        ((_entity_local_storage_delete cfgC8 "node" (.vNum 11)) stC8saved).1).1.storage
      "Q" = some idxC8 := by
  refine ⟨rfl, rfl, rfl, rfl⟩
